

import Mathlib

/-!
Verification of the wrike-neon-sync batch synchronization engine.

This file gives a shallow embedding of the sync scripts
(`hubspot_companies_sync.py`, `hubspot_contacts_sync.py`, `wrike_sync.py`,
`deliverables_sync.py`, `tasks_sync.py`, `hubspot_line_items_sync.py`):
the field-coercion layer, the paginated extraction client, the dependency
resolver, and the batched transactional upsert engine, together with
theorems about the specified properties.

Python-side values are modelled by `PyValue` (JSON-shaped data as delivered
by the HubSpot / Wrike APIs), Python exceptions by `PyExc`, and the
destination database by association tables of rows
(`Row := String → Option DbVal`, a SQL NULL / absent column being `none`).
External effects (the wall clock, commit failures injected by the network)
are explicit parameters.
-/

/-- Python exception classes relevant to the sync scripts.  Only the
distinction between classes caught by the scripts (`ValueError`,
`TypeError`) and classes that escape (`OverflowError`, `OSError`) matters. -/
inductive PyExc
  | valueError
  | typeError
  | overflowError
  | osError
  deriving DecidableEq, Repr

/-- JSON-shaped Python values as returned by `response.json()`:
`None`, strings, arbitrary-precision integers, floats (modelled as
rationals; `inf`/`nan` do not occur in API payloads), booleans, lists and
objects. -/
inductive PyValue
  | none
  | str (s : String)
  | int (n : Int)
  | float (q : ℚ)
  | bool (b : Bool)
  | list (xs : List PyValue)
  | dict (xs : List (String × PyValue))

namespace PyValue

/-- Python truthiness (`if value:`): `None`, `''`, `0`, `0.0`, `False`,
`[]` and `{}` are falsy. -/
def truthy : PyValue → Bool
  | .none => false
  | .str s => !s.isEmpty
  | .int n => n != 0
  | .float q => q != 0
  | .bool b => b
  | .list xs => !xs.isEmpty
  | .dict xs => !xs.isEmpty

/-- `value is None or value == ''`, the shared null/empty guard of the
coercion functions. -/
def isNoneOrEmpty : PyValue → Bool
  | .none => true
  | .str s => s.isEmpty
  | _ => false

end PyValue

/-- Equality on `Except` values, used to state results about the fallible
coercion functions. -/
instance {e a : Type} [DecidableEq e] [DecidableEq a] : DecidableEq (Except e a) := fun x y =>
  match x, y with
  | .ok v, .ok w => if h : v = w then .isTrue (by simp [h]) else .isFalse (by simp [h])
  | .error v, .error w => if h : v = w then .isTrue (by simp [h]) else .isFalse (by simp [h])
  | .ok _, .error _ => .isFalse (by simp)
  | .error _, .ok _ => .isFalse (by simp)

/-- The single-quote character, `'`. -/
def sqChar : Char := Char.ofNat 39

/-- Model of Python `str.lower()` (ASCII range, which covers the property
values compared against the truthy set). -/
def lowerChar (c : Char) : Char :=
  if 65 ≤ c.toNat ∧ c.toNat ≤ 90 then Char.ofNat (c.toNat + 32) else c

/-- `s.lower()` on a string value. -/
def pyLowerStr (s : String) : String := String.mk (s.data.map lowerChar)

/-- Model of CPython `str(value)` for the value shapes above.  The rendering
of floats, lists and dicts is a representative stand-in (no claim depends on
their exact text); `None`, booleans, integers and strings render exactly as
CPython renders them. -/
def pyStr : PyValue → String
  | .none => "None"
  | .str s => s
  | .int n => toString n
  | .float q => toString q
  | .bool b => if b then "True" else "False"
  | .list _ => "[...]"
  | .dict _ => "\x7b...\x7d"

/-- Model of Python `value.replace("'", "''")`: every occurrence of the
single-quote character is doubled (the pattern is a single character, so
`str.replace` acts character-wise). -/
def replaceSq (s : String) : String :=
  String.mk (go s.data)
where
  go : List Char → List Char
    | [] => []
    | c :: cs => if c = sqChar then sqChar :: sqChar :: go cs else c :: go cs

/-- Model of Python `int(s)` on a string: optional sign followed by one or
more decimal digits parses; anything else raises `ValueError`.  (Leading or
trailing whitespace and underscore separators, which CPython also accepts,
are omitted; no claim depends on them.) -/
def pyIntOfStr (s : String) : Except PyExc Int :=
  match s.data with
  | [] => .error .valueError
  | c :: cs =>
      if c = Char.ofNat 45 then  -- minus sign
        match digitsVal cs with
        | some n => .ok (-(n : Int))
        | Option.none => .error .valueError
      else if c = Char.ofNat 43 then  -- plus sign
        match digitsVal cs with
        | some n => .ok (n : Int)
        | Option.none => .error .valueError
      else
        match digitsVal (c :: cs) with
        | some n => .ok (n : Int)
        | Option.none => .error .valueError
where
  digitsVal : List Char → Option Nat
    | [] => Option.none
    | ds =>
        if ds.all (fun d => d.isDigit) then
          some (ds.foldl (fun acc d => 10 * acc + (d.toNat - 48)) 0)
        else Option.none

/-- Model of Python `float(s)` on a string: optional sign, digits, optional
decimal point and fraction digits.  Failures raise `ValueError`.
(Exponent notation and `inf`/`nan` spellings are omitted; no claim depends
on them.) -/
def pyFloatOfStr (s : String) : Except PyExc ℚ :=
  match s.data with
  | [] => .error .valueError
  | c :: cs =>
      if c = Char.ofNat 45 then
        match numVal cs with
        | some q => .ok (-q)
        | Option.none => .error .valueError
      else if c = Char.ofNat 43 then
        match numVal cs with
        | some q => .ok q
        | Option.none => .error .valueError
      else
        match numVal (c :: cs) with
        | some q => .ok q
        | Option.none => .error .valueError
where
  digitsToNat (ds : List Char) : Nat :=
    ds.foldl (fun acc d => 10 * acc + (d.toNat - 48)) 0
  numVal (ds : List Char) : Option ℚ :=
    let intPart := ds.takeWhile (fun d => d.isDigit)
    let rest := ds.dropWhile (fun d => d.isDigit)
    match rest with
    | [] => if intPart = [] then Option.none else some (digitsToNat intPart : ℚ)
    | p :: frac =>
        if p = Char.ofNat 46 ∧ frac.all (fun d => d.isDigit) ∧
            (intPart ≠ [] ∨ frac ≠ []) then
          some ((digitsToNat intPart : ℚ) +
            (digitsToNat frac : ℚ) / ((10 : ℚ) ^ frac.length))
        else Option.none

/-- CPython's largest finite double is just below `2^1024`; converting an
`int` of absolute value at least this bound to `float` raises
`OverflowError` ("int too large to convert to float"). -/
def floatMaxBound : Nat := 2 ^ 1024

/-- Model of Python `float(value)`: numbers convert, numeric strings parse
(`ValueError` otherwise), other shapes raise `TypeError`, and integers too
large for a double raise `OverflowError`. -/
def pyFloat : PyValue → Except PyExc ℚ
  | .none => .error .typeError
  | .str s => pyFloatOfStr s
  | .int n => if n.natAbs < floatMaxBound then .ok (n : ℚ) else .error .overflowError
  | .float q => .ok q
  | .bool b => .ok (if b then 1 else 0)
  | .list _ => .error .typeError
  | .dict _ => .error .typeError

/-- Model of Python `value / 1000` for an `int` value: true division
produces a double, raising `OverflowError` ("integer division result too
large for a float") when the quotient exceeds the float range. -/
def pyDivInt1000 (n : Int) : Except PyExc ℚ :=
  if n.natAbs < 1000 * floatMaxBound then .ok ((n : ℚ) / 1000)
  else .error .overflowError

/-- Seconds range accepted by `datetime.fromtimestamp` (years 1..9999). -/
def tsLo : ℚ := -62135596800

/-- Upper bound (exclusive) of the `fromtimestamp` seconds range. -/
def tsHi : ℚ := 253402300800

/-- Model of CPython `datetime.fromtimestamp(t).isoformat()` on Linux:
timestamps whose year falls in 1..9999 succeed (the ISO text itself is a
representative rendering — no claim depends on it); moderately
out-of-range timestamps raise `ValueError` ("year ... is out of range");
timestamps beyond the platform `time_t` conversion range raise `OSError`
or `OverflowError`. -/
def pyFromtimestampIso (t : ℚ) : Except PyExc String :=
  if tsLo ≤ t ∧ t < tsHi then .ok ("ts:" ++ toString t)
  else if |t| < (2 : ℚ) ^ 40 then .error .valueError
  else if |t| < (2 : ℚ) ^ 63 then .error .osError
  else .error .overflowError

/-! ## The field coercion layer

Direct translations of `safe_string`, `safe_number`, `safe_boolean` and
`safe_datetime` from `hubspot_companies_sync.py` (lines 145–187; the
`hubspot_contacts_sync.py` and `wrike_sync.py` copies are identical).
Functions whose Python bodies can raise an uncaught exception return
`Except PyExc _`; the `try/except (ValueError, TypeError)` blocks of the
source are modelled by catching exactly those two classes. -/

/-- `safe_string` (hubspot_companies_sync.py line 145): `None` becomes the
empty string, everything else is stringified with embedded single quotes
doubled.  Total — never raises. -/
def safe_string (v : PyValue) : String :=
  match v with
  | .none => ""
  | w => replaceSq (pyStr w)

/-- Catch clause of the coercion functions: `except (ValueError, TypeError)`
returns `None`; every other exception propagates. -/
def catchVT (r : Except PyExc ℚ) : Except PyExc (Option ℚ) :=
  match r with
  | .ok q => .ok (some q)
  | .error .valueError => .ok Option.none
  | .error .typeError => .ok Option.none
  | .error e => .error e

/-- `safe_number` (hubspot_companies_sync.py line 151): `None`/`''` give
`None`; otherwise `float(value)` under `except (ValueError, TypeError)`.
An `OverflowError` from `float(huge int)` is NOT caught and escapes. -/
def safe_number (v : PyValue) : Except PyExc (Option ℚ) :=
  if v.isNoneOrEmpty then .ok Option.none
  else catchVT (pyFloat v)

/-- `safe_boolean` (hubspot_companies_sync.py line 160): `None`/`''` give
`None`; booleans pass through; strings compare case-insensitively against
the truthy set; every other value goes through `bool(value)`.  Total. -/
def safe_boolean (v : PyValue) : Option Bool :=
  if v.isNoneOrEmpty then Option.none
  else
    match v with
    | .bool b => some b
    | .str s =>
        let l := pyLowerStr s
        some (l == "true" || l == "1" || l == "yes" || l == "on")
    | w => some w.truthy

/-- `safe_datetime` (hubspot_companies_sync.py line 170): `None`/`''` give
`None`; an int or float is treated as a millisecond epoch via
`datetime.fromtimestamp(value / 1000)`; a string longer than 10 characters
containing `T` or `-` passes through; everything else gives `None`.  The
`except (ValueError, TypeError)` catch does NOT cover the `OverflowError`
and `OSError` that the division and `fromtimestamp` can raise. -/
def safe_datetime (v : PyValue) : Except PyExc (Option String) :=
  if v.isNoneOrEmpty then .ok Option.none
  else
    let body : Except PyExc (Option String) :=
      match v with
      | .int n => do
          let q ← pyDivInt1000 n
          let s ← pyFromtimestampIso q
          return some s
      | .float q => do
          let s ← pyFromtimestampIso (q / 1000)
          return some s
      | .bool b => do
          -- bool is a subclass of int in Python, so it takes the epoch path
          let s ← pyFromtimestampIso (if b then (1 : ℚ) / 1000 else 0)
          return some s
      | .str s =>
          if s.data.length > 10 ∧ (s.data.contains 'T' ∨ s.data.contains '-') then
            .ok (some s)
          else .ok Option.none
      | _ => .ok Option.none
    match body with
    | .ok r => .ok r
    | .error .valueError => .ok Option.none
    | .error .typeError => .ok Option.none
    | .error e => .error e

/-- The `integer` branch of the property loop (hubspot_companies_sync.py
lines 342–349): `int(float(value))` under `except (ValueError, TypeError)`,
with `None`/`''` mapped to `None` first.  `float` of a huge int raises an
uncaught `OverflowError` here as well. -/
def safe_integer_branch (v : PyValue) : Except PyExc (Option Int) :=
  if !v.isNoneOrEmpty then
    match pyFloat v with
    | .ok q => .ok (some (q.num.div q.den))  -- int() truncates toward zero (T-division)
    | .error .valueError => .ok Option.none
    | .error .typeError => .ok Option.none
    | .error e => .error e
  else .ok Option.none

/-! ## The destination store

The destination is a PostgreSQL database; each target table is modelled as
a list of rows, a row being a function from column name to `Option DbVal`
(`none` = SQL NULL / never-written column).  The two upsert statement
shapes used by the scripts are modelled relationally:

* `INSERT ... ON CONFLICT (key) DO UPDATE SET c = EXCLUDED.c, ...`
  (hubspot_companies_sync.py lines 365–370, wrike_sync.py lines 209–232);
* `WITH up AS (UPDATE ... WHERE key = v RETURNING key)
   INSERT ... SELECT ... WHERE NOT EXISTS (SELECT 1 FROM up)`
  (deliverables_sync.py lines 262–316).

Both reduce to `updateThenInsert`: update every row whose key column holds
the statement's key value, and insert a fresh row when none matched. -/

/-- A SQL parameter value as adapted by psycopg2: text, integer, boolean,
or an explicit NULL. -/
inductive DbVal
  | s (v : String)
  | i (n : Int)
  | f (q : ℚ)
  | b (v : Bool)
  | null
  deriving DecidableEq, Repr

/-- A stored row: column name to value, `none` for NULL/never written. -/
abbrev Row := String → Option DbVal

/-- A destination table. -/
abbrev Table := List Row

/-- The column/value list of one statement. -/
abbrev Cols := List (String × DbVal)

/-- First-match association lookup (also used for Python `dict`/`.get`). -/
def alookup {α : Type} : List (String × α) → String → Option α
  | [], _ => Option.none
  | p :: ps, c => if p.1 = c then some p.2 else alookup ps c

/-- Python dict assignment `d[k] = v`: replace the binding in place if the
key exists, otherwise append it.  Keys of a dict built this way are
distinct. -/
def dictInsert {α : Type} : List (String × α) → String → α → List (String × α)
  | [], k, v => [(k, v)]
  | p :: ps, k, v => if p.1 = k then (k, v) :: ps else p :: dictInsert ps k v

/-- Keys of an association list. -/
def keysOf {α : Type} (l : List (String × α)) : List String := l.map Prod.fst

/-- The freshly inserted row of a statement: exactly the statement's
columns, every other column NULL. -/
def rowOf (cols : Cols) : Row := fun c => alookup cols c

/-- Applying an UPDATE's SET list to a stored row: listed columns take the
new value, all others keep their stored value. -/
def setCols (r : Row) (u : Cols) : Row := fun c =>
  match alookup u c with
  | some v => some v
  | Option.none => r c

/-- Does some row of the table hold value `kv` in column `key`? -/
def tableHas : Table → String → DbVal → Bool
  | [], _, _ => false
  | r :: t, key, kv => if r key = some kv then true else tableHas t key kv

/-- `UPDATE ... SET u WHERE key = kv`: every matching row is updated. -/
def updateWhere : Table → String → DbVal → Cols → Table
  | [], _, _, _ => []
  | r :: t, key, kv, u =>
      (if r key = some kv then setCols r u else r) :: updateWhere t key kv u

/-- Shared core of both upsert statement shapes: update the matching rows,
or insert a fresh row when none matches. -/
def updateThenInsert (t : Table) (key : String) (kv : DbVal)
    (updCols insCols : Cols) : Table :=
  if tableHas t key kv then updateWhere t key kv updCols
  else t ++ [rowOf insCols]

/-- `INSERT ... ON CONFLICT (key) DO UPDATE SET ...`.  The key value is the
one carried by the statement's own column list; a statement that does not
bind its key column violates the NOT NULL primary key constraint, which
surfaces as a database error. -/
def upsertOnConflict (t : Table) (key : String) (insCols updCols : Cols) :
    Except String Table :=
  match alookup insCols key with
  | Option.none => .error "null value in primary key column"
  | some kv => .ok (updateThenInsert t key kv updCols insCols)

/-! ## HubSpot record processing (`hubspot_companies_sync.py`,
`hubspot_contacts_sync.py`)

A HubSpot record is a JSON object with an `id` and a `properties` object.
`process_companies` / `process_contacts` map the configured property lists
through the coercion layer into a `db_values` dict, drop the `None`
entries, and execute one `INSERT ... ON CONFLICT (id) DO UPDATE` statement
per record, 25 records per transaction. -/

/-- One record from the HubSpot API (`company.get('id')`,
`company.get('properties', {})`).  HubSpot delivers ids as JSON strings. -/
structure HsRecord where
  id : Option String
  properties : List (String × PyValue)

/-- The five data-type buckets of `property_mappings`. -/
inductive PType
  | string | integer | float | boolean | datetime
  deriving DecidableEq, Repr

/-- The `'string'` property list of `property_mappings` (hubspot_companies_sync.py lines 46–132). -/
def companyProps_string : List String := [
    "description", "airtablecompanyid", "name", "country", "hs_pipeline", "timezone",
    "hs_object_source", "city", "website", "hs_analytics_source", "linkedin_company_page",
    "hs_object_source_label", "hs_analytics_latest_source_data_2", "hs_user_ids_of_all_owners",
    "hs_analytics_latest_source_data_1", "hs_all_accessible_team_ids", "state",
    "hs_analytics_latest_source", "hs_analytics_source_data_2", "hs_analytics_source_data_1",
    "domain", "lifecyclestage", "hs_object_source_id", "hs_all_team_ids",
    "hs_annual_revenue_currency_code", "hs_all_owner_ids", "linkedinbio", "address", "phone",
    "zip", "type", "facebook_company_page", "it_channel_role", "industry", "twitterhandle",
    "address_2", "disti_sales_contact", "cisco_tier", "cisco_distributor",
    "disti_marketing_contact", "manufacturer_partners", "crm", "google_drive_id",
    "lqb_qb_sync_2", "first_conversion_event_name", "company_abbreviation",
    "program_participation", "recent_conversion_event_name", "company_billing_comtact",
    "wrikeid", "hs_additional_domains", "hs_merged_object_ids", "marketing_software",
    "pain_point", "google_drive_url", "deal_category_status", "total_money_raised",
    "hs_last_sales_activity_type", "cisco_region",
    "hs_analytics_last_touch_converting_campaign",
    "hs_analytics_first_touch_converting_campaign", "website_cms", "cisco_programs",
    "cisco_specializations", "maverick_agency", "cisco_territory", "hs_avatar_filemanager_key",
    "distributor_sales_divison", "target_audience_geo", "target_audience_size",
    "target_audience_vertical", "business_objective", "ziflowcompanyid", "billing_email",
    "ziflow_internal_review_id", "landing_page_cms", "service_software", "blog_cms",
    "hs_object_source_detail_1", "primary_approver",
    "sales_-deprecated-ae6eb54b-5165-422b-b05e-b7e7f9080f79", "marketing_process",
    "hs_notes_next_activity_type", "brand_-deprecated-70c5de48-fc37-417b-adec-3a660f2e4225",
    "compan-deprecated-06c95f49-676e-44b2-89ee-b7c240042224",
    "compan-deprecated-20769619-75ab-4159-ab5d-3d1afb1fd258", "opsai_create_uvp",
    "opsai_create_about_us", "cisco_partner_name", "create_assessment", "cm_notes",
    "abm_campaign_enrollment", "hs_logo_url", "preferred_meeting_platform", "usa_state",
    "cm_recommendations", "ai_files", "presh_opsai_prompt", "company_tags",
    "company_legal_name", "company_twitter_site", "company_twitter_handle", "twitterbio",
    "sub_industry", "reporting_marketing", "holiday", "publishing_methods",
    "publishing_preference", "widely_observed_days", "technology",
    "tracking_and_analytics_tools", "services_offered", "target_geo_states",
    "unique_value_proposition", "instagram_profile", "ziflow_client_folder_url",
    "web_technologies", "content_guidelines", "brand_positioning", "marketing_successes",
    "marketing_failures", "ongoing_marketing_efforts", "company_strengths", "about_us",
    "company_threats", "company_opportunities", "company_weaknesses", "competitors", "tags",
    "opsai_crawl", "company_fit_score_threshold", "hs_task_label", "company_style_guide",
    "brand_guide", "compan-deprecated-a370bd8a-602a-4f67-94bf-114eed337edc", "sample_proposals",
    "company_logo", "additional_brand_files", "brand_design_files", "sales_process",
    "ziflow_client_folder_url_complete_"
]

/-- The `'integer'` property list of `property_mappings` (hubspot_companies_sync.py lines 46–132). -/
def companyProps_integer : List String := [
    "hubspot_team_id", "founded_year", "hubspot_owner_id", "owneremail", "cisco_account_geo_id",
    "quickbooksclientid", "hs_user_ids_of_all_notification_unfollowers", "hubdb_id",
    "owner_coordinator", "hubdb_proofs_id", "clickupcompanyid", "snitcher_id",
    "hs_all_assigned_business_unit_ids", "secondary_owner", "cisco_disti_geo_id"
]

/-- The `'float'` property list of `property_mappings` (hubspot_companies_sync.py lines 46–132). -/
def companyProps_float : List String := [
    "number_of_tickets", "num_associated_contacts", "hs_num_contacts_with_buying_roles",
    "annualrevenue", "hs_num_decision_makers", "hs_num_open_deals", "hs_num_child_companies",
    "hs_num_blockers", "hs_analytics_num_visits", "hs_target_account_probability", "num_notes",
    "hs_time_in_subscriber", "hs_predictivecontactscore_v_2", "hs_analytics_num_page_views",
    "hs_updated_by_user_id", "num_contacted_notes", "hs_object_id", "numberofemployees",
    "hs_time_in_other", "distributor_revenue_12_months_", "days_to_close", "total_revenue",
    "num_conversion_events", "hs_total_deal_value", "recent_deal_amount",
    "hs_time_in_salesqualifiedlead", "hs_time_in_opportunity", "num_associated_deals",
    "hs_time_in_customer", "hs_created_by_user_id", "hs_time_in_lead",
    "hs_object_source_user_id", "hs_time_in_evangelist", "hs_time_in_marketingqualifiedlead",
    "marketing_employees", "hs_parent_company_id", "company_fit_score"
]

/-- The `'boolean'` property list of `property_mappings` (hubspot_companies_sync.py lines 46–132). -/
def companyProps_boolean : List String := [
    "hs_is_target_account", "is_public", "hs_was_imported", "program_partner", "company_assets",
    "deal_category_retainer", "dnc_no_marketing_company_wide_", "deal_category_project",
    "ziflow_create_folder", "google_drive", "qb_customer", "customer_portal",
    "wrike_create_client", "update_ticket_owner", "deal_category_program",
    "deal_category_program_partner", "managed_social", "opsai_relationship"
]

/-- The `'datetime'` property list of `property_mappings` (hubspot_companies_sync.py lines 46–132). -/
def companyProps_datetime : List String := [
    "hs_analytics_first_timestamp", "notes_last_updated", "hs_lastmodifieddate",
    "first_contact_createdate", "hs_analytics_latest_source_timestamp", "notes_last_contacted",
    "hubspot_owner_assigneddate", "createdate", "hs_sales_email_last_replied",
    "hs_date_entered_subscriber", "hs_last_sales_activity_timestamp",
    "hs_last_sales_activity_date", "hs_date_entered_other", "notes_next_activity_date",
    "hs_latest_meeting_activity", "hs_last_booked_meeting_date", "hs_date_exited_opportunity",
    "closedate", "last_project_end_date", "hs_date_exited_salesqualifiedlead",
    "first_deal_created_date", "hs_last_open_task_date", "hs_date_entered_customer",
    "hs_analytics_first_visit_timestamp", "hs_analytics_last_timestamp",
    "hs_date_entered_opportunity", "engagements_last_meeting_booked",
    "hs_analytics_last_visit_timestamp", "hs_date_entered_salesqualifiedlead",
    "recent_conversion_date", "recent_deal_project_end_date", "recent_deal_close_date",
    "first_conversion_date", "hs_date_exited_lead", "hs_date_entered_lead",
    "hs_date_exited_subscriber", "hs_last_logged_call_date",
    "hs_date_entered_marketingqualifiedlead", "hs_date_entered_evangelist",
    "hs_date_exited_marketingqualifiedlead", "hs_latest_createdate_of_active_subscriptions",
    "recent_assessment_date", "hs_last_logged_outgoing_email_date"
]

/-- The `'string'` property list of `property_mappings` (hubspot_contacts_sync.py lines 43–160). -/
def contactProps_string : List String := [
    "firstname", "lastname", "email", "company", "phone", "mobilephone", "address", "address_2",
    "city", "state", "zip", "country", "website", "jobtitle", "salutation",
    "hs_country_region_code", "fax", "hs_email_domain", "hs_facebookid", "hs_googleplusid",
    "twitterhandle", "linkedinbio", "twitter", "linkedinconnections", "industry", "seniority",
    "hs_job_function", "school", "degree", "field_of_study", "graduation_date", "company_size",
    "annualrevenue", "military_status", "relationship_status", "gender", "date_of_birth",
    "hs_analytics_first_url", "hs_analytics_last_url", "hs_analytics_first_referrer",
    "hs_analytics_last_referrer", "hs_analytics_source", "hs_analytics_source_data_1",
    "hs_analytics_source_data_2", "hs_latest_source", "hs_latest_source_data_1",
    "hs_latest_source_data_2", "gclid", "hs_google_click_id", "hs_facebook_click_id",
    "utm_campaign", "utm_content", "utm_medium", "utm_source", "utm_term",
    "hs_analytics_first_touch_converting_campaign",
    "hs_analytics_last_touch_converting_campaign", "hs_email_last_email_name",
    "hs_last_sales_activity_type", "hs_last_sms_send_name", "recent_conversion_event_name",
    "first_conversion_event_name", "lifecyclestage", "lead_status", "hs_lead_status",
    "hs_pipeline", "hs_object_source", "hs_object_source_id", "hs_object_source_label",
    "hs_object_source_detail_1", "hs_avatar_filemanager_key", "hs_content_membership_email",
    "hs_content_membership_notes", "hs_content_membership_registration_domain_sent_to",
    "hs_conversations_visitor_email", "hs_ip_timezone", "hs_email_hard_bounce_reason",
    "comments", "notes", "message", "clickup_user_id", "gdrivecompanyid", "company_type",
    "contact_type", "customer_type", "it_channel_role", "pain_point", "marketing_software",
    "crm", "tags", "company_tags"
]

/-- The `'integer'` property list of `property_mappings` (hubspot_contacts_sync.py lines 43–160). -/
def contactProps_integer : List String := [
    "associatedcompanyid", "hubspot_owner_id", "hubspot_team_id", "hs_object_id",
    "hs_created_by_user_id", "hs_updated_by_user_id", "hs_object_source_user_id",
    "hs_email_sends", "hs_email_opens", "hs_email_clicks", "hs_email_replies",
    "hs_email_bounces", "followercount", "num_associated_deals", "num_contacted_notes",
    "num_notes", "num_unique_forms_submitted"
]

/-- The `'float'` property list of `property_mappings` (hubspot_contacts_sync.py lines 43–160). -/
def contactProps_float : List String := [
    "hs_predictivecontactscore_v2", "total_revenue", "days_to_close", "recent_deal_amount",
    "hs_analytics_num_page_views", "hs_analytics_num_visits", "hs_analytics_average_page_views",
    "hs_analytics_revenue", "hs_time_in_lead", "hs_time_in_subscriber",
    "hs_time_in_opportunity", "hs_time_in_customer", "hs_time_in_marketingqualifiedlead",
    "hs_time_in_salesqualifiedlead"
]

/-- The `'boolean'` property list of `property_mappings` (hubspot_contacts_sync.py lines 43–160). -/
def contactProps_boolean : List String := [
    "hs_email_optout", "hs_email_is_ineligible", "hs_email_bad_address",
    "hs_data_privacy_ads_consent", "hs_content_membership_email_confirmed",
    "hs_created_by_conversations", "hs_was_imported", "hs_is_contact", "hs_is_unworked",
    "fb_ad_clicked", "hs_contact_enrichment_opt_out"
]

/-- The `'datetime'` property list of `property_mappings` (hubspot_contacts_sync.py lines 43–160). -/
def contactProps_datetime : List String := [
    "createdate", "lastmodifieddate", "hs_lastmodifieddate", "closedate",
    "first_conversion_date", "recent_conversion_date", "hubspot_owner_assigneddate",
    "hs_analytics_first_timestamp", "hs_analytics_last_timestamp",
    "hs_analytics_first_visit_timestamp", "hs_analytics_last_visit_timestamp",
    "hs_latest_source_timestamp", "hs_email_first_send_date", "hs_email_last_send_date",
    "hs_email_first_open_date", "hs_email_last_open_date", "hs_email_first_click_date",
    "hs_email_last_click_date", "hs_last_sales_activity_date",
    "hs_last_sales_activity_timestamp", "notes_last_contacted", "notes_last_updated",
    "notes_next_activity_date", "hs_latest_meeting_activity", "hs_last_booked_meeting_date",
    "hs_last_logged_call_date", "hs_last_open_task_date", "hs_date_entered_subscriber",
    "hs_date_exited_subscriber", "hs_date_entered_lead", "hs_date_exited_lead",
    "hs_date_entered_marketingqualifiedlead", "hs_date_exited_marketingqualifiedlead",
    "hs_date_entered_salesqualifiedlead", "hs_date_exited_salesqualifiedlead",
    "hs_date_entered_opportunity", "hs_date_exited_opportunity", "hs_date_entered_customer",
    "hs_date_exited_customer"
]

/-- `self.property_mappings` of `HubSpotCompaniesSync.__init__`, in dict
order. -/
def companyPropertyMappings : List (PType × List String) :=
  [(.string, companyProps_string), (.integer, companyProps_integer),
   (.float, companyProps_float), (.boolean, companyProps_boolean),
   (.datetime, companyProps_datetime)]

/-- `self.property_mappings` of `HubSpotContactsSync.__init__`, in dict
order. -/
def contactPropertyMappings : List (PType × List String) :=
  [(.string, contactProps_string), (.integer, contactProps_integer),
   (.float, contactProps_float), (.boolean, contactProps_boolean),
   (.datetime, contactProps_datetime)]

/-- The per-type branch of the property loop (hubspot_companies_sync.py
lines 336–353): datetime/float/integer/boolean go through the
corresponding coercion; a string property is kept (escaped) when truthy
and `None` otherwise. -/
def coerceProp (pt : PType) (v : PyValue) : Except PyExc (Option DbVal) :=
  match pt with
  | .datetime => (safe_datetime v).map (fun o => o.map DbVal.s)
  | .float => (safe_number v).map (fun o => o.map DbVal.f)
  | .integer => (safe_integer_branch v).map (fun o => o.map DbVal.i)
  | .boolean => .ok ((safe_boolean v).map DbVal.b)
  | .string => .ok (if v.truthy then some (DbVal.s (safe_string v)) else Option.none)

/-- Python exception class name, the text carried by a caught exception. -/
def pyExcName : PyExc → String
  | .valueError => "ValueError"
  | .typeError => "TypeError"
  | .overflowError => "OverflowError"
  | .osError => "OSError"

/-- `properties.get(prop_name)`: missing keys give `None`. -/
def propGet (props : List (String × PyValue)) (name : String) : PyValue :=
  match alookup props name with
  | some v => v
  | Option.none => PyValue.none

/-- `'id': int(company_id) if company_id else None` (line 323):
`int()` of a truthy non-numeric id raises `ValueError`. -/
def hsIdVal (rec : HsRecord) : Except PyExc (Option DbVal) :=
  match rec.id with
  | some s =>
      if s.isEmpty then .ok Option.none
      else (pyIntOfStr s).map (fun n => some (DbVal.i n))
  | Option.none => .ok Option.none

/-- The metadata entries of `db_values` (lines 322–328). -/
def hsBase (now : String) (idVal : Option DbVal) : List (String × Option DbVal) :=
  [("id", idVal), ("portal_id", some (DbVal.i 1849303)),
   ("is_deleted", some (DbVal.b false)), ("_fivetran_deleted", some (DbVal.b false)),
   ("_fivetran_synced", some (DbVal.s now))]

/-- One `db_values[db_field] = coerce(value)` assignment of the property
loop. -/
def hsPropStep (props : List (String × PyValue)) (pt : PType)
    (acc : List (String × Option DbVal)) (name : String) :
    Except PyExc (List (String × Option DbVal)) :=
  (coerceProp pt (propGet props name)).map
    (fun cv => dictInsert acc ("property_" ++ name) cv)

/-- The `db_values` dict of one record (hubspot_companies_sync.py lines
322–353): the metadata entries, then one `property_`-prefixed entry per
configured property, built by Python dict assignment. -/
def hsDbValues (mappings : List (PType × List String)) (now : String)
    (rec : HsRecord) : Except PyExc (List (String × Option DbVal)) :=
  (hsIdVal rec).bind (fun idVal =>
    mappings.foldlM
      (fun acc pm => pm.2.foldlM (hsPropStep rec.properties pm.1) acc)
      (hsBase now idVal))

/-- `non_null_fields = {k: v for k, v in db_values.items() if v is not None}`. -/
def nonNullCols (l : List (String × Option DbVal)) : Cols :=
  l.filterMap (fun p => p.2.map (fun v => (p.1, v)))

/-- One record's statement execution (hubspot_companies_sync.py lines
355–372): build the dynamic column list and run the
`ON CONFLICT (id) DO UPDATE` upsert; the update clause covers every
non-null field except `id`. -/
def hsProcessRecord (mappings : List (PType × List String)) (now : String)
    (rec : HsRecord) (pending : Table) : Except String Table :=
  match hsDbValues mappings now rec with
  | .error e => .error (pyExcName e)
  | .ok dbv =>
      let ins := nonNullCols dbv
      let upd := ins.filter (fun p => ¬ p.1 = "id")
      upsertOnConflict pending "id" ins upd

/-- State of the per-batch record loop: the pending transaction and the
batch-local counters and id list. -/
structure BatchLoopSt where
  pending : Table
  bp : Nat
  bs : Nat
  ids : List (Option String)

/-- The record loop of one batch (hubspot_companies_sync.py lines
305–378): each record's id is appended to the batch id list, then its
statement is attempted; any exception is caught, counted as skipped, and
the loop continues. -/
def hsBatchLoop (mappings : List (PType × List String)) (now : String)
    (batch : List HsRecord) (pending0 : Table) : BatchLoopSt :=
  batch.foldl
    (fun st rec =>
      let st := { st with ids := st.ids ++ [rec.id] }
      match hsProcessRecord mappings now rec st.pending with
      | .ok p => { st with pending := p, bp := st.bp + 1 }
      | .error _ => { st with bs := st.bs + 1 })
    ⟨pending0, 0, 0, []⟩

/-- External effects of one run: the wall-clock text used for
`_fivetran_synced`, and whether `conn.commit()` of batch index `n` raises
(`some msg` = the exception text, `none` = commit succeeds). -/
structure CommitEnv where
  now : String
  commit : Nat → Option String

/-- One failed batch as recorded in `failed_batches`
(hubspot_companies_sync.py lines 394–400). -/
structure FailedBatch where
  batchNumber : Nat
  ids : List (Option String)
  error : String
  count : Nat
  deriving DecidableEq, Repr

/-- Run totals of `process_companies`: the committed table, the counters,
the failed-batch list, and the successful-batch count. -/
structure SyncStats where
  committed : Table
  processed : Nat
  skipped : Nat
  failed : List FailedBatch
  successes : Nat

/-- One batch of `process_companies` (hubspot_companies_sync.py lines
300–410): run the record loop against the current committed state, then
commit — on success merge the batch-local counters, on failure roll back
(discard the pending table), count the whole batch as skipped and record
the failure with the attempted ids and the error text. -/
def companiesBatchStep (env : CommitEnv) (st : SyncStats) (batchNum : Nat)
    (batch : List HsRecord) : SyncStats :=
  let l := hsBatchLoop companyPropertyMappings env.now batch st.committed
  match env.commit batchNum with
  | Option.none =>
      { st with committed := l.pending, processed := st.processed + l.bp,
                skipped := st.skipped + l.bs, successes := st.successes + 1 }
  | some msg =>
      { st with skipped := st.skipped + batch.length,
                failed := st.failed ++ [⟨batchNum + 1, l.ids, msg, batch.length⟩] }

/-- `BATCH_SIZE = 25` slicing of the record list, fuelled so it reduces
by structural recursion (the wrapper passes enough fuel that the bare
`fuel = 0` branch is unreachable). -/
def chunks25F {α : Type} : Nat → List α → List (List α)
  | _, [] => []
  | 0, l => [l]
  | fuel + 1, x :: xs => ((x :: xs).take 25) :: chunks25F fuel ((x :: xs).drop 25)

/-- `BATCH_SIZE = 25` slicing of the record list. -/
def chunks25 {α : Type} (l : List α) : List (List α) := chunks25F l.length l

/-- The batch loop of `process_companies`, batches processed strictly in
order, one `companiesBatchStep` each. -/
def companiesRun (env : CommitEnv) : Nat → List (List HsRecord) → SyncStats → SyncStats
  | _, [], st => st
  | i, b :: rest, st => companiesRun env (i + 1) rest (companiesBatchStep env st i b)

/-- Python truthiness of the `test_limit` argument and `l[:test_limit]`. -/
def pyTruncate {α : Type} (limit : Option Nat) (l : List α) : List α :=
  match limit with
  | some n => if n = 0 then l else l.take n
  | Option.none => l

/-- `process_companies` (hubspot_companies_sync.py lines 259–431). -/
def process_companies (env : CommitEnv) (limit : Option Nat)
    (companies : List HsRecord) (t0 : Table) : SyncStats :=
  companiesRun env 0 (chunks25 (pyTruncate limit companies)) ⟨t0, 0, 0, [], 0⟩

/-- Run totals of `process_contacts`, which tracks no failed-batch list
(hubspot_contacts_sync.py lines 286–287). -/
structure CStats where
  committed : Table
  processed : Nat
  skipped : Nat

/-- One batch of `process_contacts` (hubspot_contacts_sync.py lines
297–375).  Unlike `process_companies`, the per-record counters are the
run-level `processed_count`/`skipped_count` themselves, incremented as the
loop runs, so a batch-level failure adds `len(batch)` to `skipped_count`
on top of the per-record tallies, and keeps the `processed_count`
contributions of its rolled-back records. -/
def contactsBatchStep (env : CommitEnv) (st : CStats) (batchNum : Nat)
    (batch : List HsRecord) : CStats :=
  let l := hsBatchLoop contactPropertyMappings env.now batch st.committed
  match env.commit batchNum with
  | Option.none =>
      { committed := l.pending, processed := st.processed + l.bp,
        skipped := st.skipped + l.bs }
  | some _ =>
      { committed := st.committed, processed := st.processed + l.bp,
        skipped := st.skipped + l.bs + batch.length }

/-- The batch loop of `process_contacts`. -/
def contactsRun (env : CommitEnv) : Nat → List (List HsRecord) → CStats → CStats
  | _, [], st => st
  | i, b :: rest, st => contactsRun env (i + 1) rest (contactsBatchStep env st i b)

/-- `process_contacts` (hubspot_contacts_sync.py lines 274–377). -/
def process_contacts (env : CommitEnv) (limit : Option Nat)
    (contacts : List HsRecord) (t0 : Table) : CStats :=
  contactsRun env 0 (chunks25 (pyTruncate limit contacts)) ⟨t0, 0, 0⟩

/-! ## Paginated extraction (`get_all_companies`,
hubspot_companies_sync.py lines 189–247)

The HubSpot endpoint serves pages of at most the requested size together
with a continuation cursor while more records remain.  Cursors are
modelled as positions into the full upstream record list. -/

/-- One page response: `{results: [...], paging: {next: {after: ...}}}`. -/
structure PageResp where
  results : List HsRecord
  next : Option Nat

/-- `get_companies_batch`: the page of `limit` records starting at the
cursor, with a next-cursor iff more remain. -/
def get_companies_batch (src : List HsRecord) (pos : Nat) (limit : Nat) : PageResp :=
  { results := (src.drop pos).take limit,
    next := if pos + limit < src.length then some (pos + limit) else Option.none }

/-- Truthiness of `self.test_limit` (`if self.test_limit:`). -/
def limTruthy (o : Option Nat) : Bool :=
  match o with
  | some n => n != 0
  | Option.none => false

/-- The value of a truthy limit. -/
def limVal (o : Option Nat) : Nat := o.getD 0

/-- The pagination loop of `get_all_companies` (lines 223–244): fetch a
page, extend the accumulator, truncate and stop once the test limit is
reached, stop when no next cursor remains.  `fuel` bounds the iteration
count; the wrapper supplies more fuel than the loop can consume, so the
fuel-exhaustion branch is unreachable. -/
def getAllAux (src : List HsRecord) (testLimit : Option Nat) (batchSize : Nat) :
    Nat → Nat → List HsRecord → List HsRecord
  | 0, _, acc => acc
  | fuel + 1, pos, acc =>
      let page := get_companies_batch src pos batchSize
      let acc2 := acc ++ page.results
      if limTruthy testLimit ∧ acc2.length ≥ limVal testLimit then
        acc2.take (limVal testLimit)
      else
        match page.next with
        | Option.none => acc2
        | some pos2 => getAllAux src testLimit batchSize fuel pos2 acc2

/-- `get_all_companies` (hubspot_companies_sync.py lines 214–247):
`batch_size = min(100, test_limit)` when a limit is given, then the
pagination loop from position 0. -/
def get_all_companies (src : List HsRecord) (testLimit : Option Nat) : List HsRecord :=
  let batchSize := if limTruthy testLimit then min 100 (limVal testLimit) else 100
  getAllAux src testLimit batchSize (src.length + 1) 0 []

/-! ## Wrike client upsert (`wrike_sync.py`, `process_clients` lines
170–253) -/

/-- `self.custom_fields` of `WrikeSync.__init__` (wrike_sync.py lines
51–75), field name to Wrike custom-field id. -/
def wkCustomFieldIds : List (String × String) :=
  [("google_drive_folder_id", "IEAGEMDVJUAGD64G"), ("approver_email", "IEAGEMDVJUAFZXR5"),
   ("ziflow_id", "IEAGEMDVJUAFZXVS"), ("hubspot_id", "IEAGEMDVJUAFZN76"),
   ("brand_guide_url", "IEAGEMDVJUAF2QEK"), ("parent_category", "IEAGEMDVJUAFZXR6"),
   ("program_name", "IEAGEMDVJUAF2R5G"), ("co_marketing", "IEAGEMDVJUAF2QNP"),
   ("hs_company_id", "IEAGEMDVJUAHBOIL"), ("comarketing_required", "IEAGEMDVJUAGTTIR"),
   ("child_type", "IEAGEMDVJUAFZXSB"), ("deliverable_type", "IEAGEMDVJUAFX3LA"),
   ("deliverable_category", "IEAGEMDVJUAGOJU2"), ("proof_id", "IEAGEMDVJUAFZN7T"),
   ("proof_url", "IEAGEMDVJUAFZQQX"), ("proof_version", "IEAGEMDVJUAFZN7V"),
   ("proof_status", "IEAGEMDVJUAFZN6T"), ("proof_error", "IEAGEMDVJUAFZ3KF"),
   ("company", "IEAGEMDVJUAHIQEQ"), ("publish_owner", "IEAGEMDVJUAGNW55"),
   ("target_pub_date", "IEAGEMDVJUAHD4AP"), ("original_date", "IEAGEMDVJUAHES5L")]

/-- `get_custom_field_value(custom_fields, field_id)` (wrike_sync.py lines
83–88): the `value` of the first entry with the given id, else `None`.
A record's custom-field list is modelled as id/value pairs. -/
def get_custom_field_value (cfs : List (String × PyValue)) (fid : String) : PyValue :=
  propGet cfs fid

/-- One Wrike client folder as consumed by `process_clients`. -/
structure Client where
  id : String
  title : PyValue
  createdDate : Option String
  updatedDate : Option String
  customFields : List (String × PyValue)
  projectOwnerIds : List String
  projectCustomStatusId : Option String
  briefDescription : PyValue
  description : PyValue

/-- Custom-field lookup by configured name for a client record. -/
def wkCF (c : Client) (name : String) : PyValue :=
  match alookup wkCustomFieldIds name with
  | some fid => get_custom_field_value c.customFields fid
  | Option.none => PyValue.none

/-- A raw optional-string parameter (psycopg2 adapts `None` to NULL). -/
def optStrVal (o : Option String) : DbVal :=
  match o with
  | some s => DbVal.s s
  | Option.none => DbVal.null

/-- The column/value list of the client INSERT (wrike_sync.py lines
209–250), in statement order. -/
def wk_clientInsCols (c : Client) : Cols :=
  [("wrike_id", DbVal.s c.id),
   ("title", DbVal.s (safe_string c.title)),
   ("created_date", optStrVal c.createdDate),
   ("updated_date", optStrVal c.updatedDate),
   ("approver_email", DbVal.s (safe_string (wkCF c "approver_email"))),
   ("hubspot_id", DbVal.s (safe_string (wkCF c "hubspot_id"))),
   ("ziflow_id", DbVal.s (safe_string (wkCF c "ziflow_id"))),
   ("owner_id", optStrVal c.projectOwnerIds.head?),
   ("status", DbVal.s "Active"),
   ("custom_status_id", optStrVal c.projectCustomStatusId),
   ("brand_guide_url", DbVal.s (safe_string (wkCF c "brand_guide_url"))),
   ("google_drive_folder_id", DbVal.s (safe_string (wkCF c "google_drive_folder_id"))),
   ("brief_description", DbVal.s (safe_string c.briefDescription)),
   ("description", DbVal.s (safe_string c.description)),
   ("active", DbVal.b true)]

/-- The `ON CONFLICT (wrike_id) DO UPDATE SET` list of the client upsert
(wrike_sync.py lines 218–231): every insert column except `wrike_id` and
`created_date`, each set to its `EXCLUDED` (inserted) value. -/
def wk_clientUpdCols (c : Client) : Cols :=
  [("title", DbVal.s (safe_string c.title)),
   ("updated_date", optStrVal c.updatedDate),
   ("approver_email", DbVal.s (safe_string (wkCF c "approver_email"))),
   ("hubspot_id", DbVal.s (safe_string (wkCF c "hubspot_id"))),
   ("ziflow_id", DbVal.s (safe_string (wkCF c "ziflow_id"))),
   ("owner_id", optStrVal c.projectOwnerIds.head?),
   ("status", DbVal.s "Active"),
   ("custom_status_id", optStrVal c.projectCustomStatusId),
   ("brand_guide_url", DbVal.s (safe_string (wkCF c "brand_guide_url"))),
   ("google_drive_folder_id", DbVal.s (safe_string (wkCF c "google_drive_folder_id"))),
   ("brief_description", DbVal.s (safe_string c.briefDescription)),
   ("description", DbVal.s (safe_string c.description)),
   ("active", DbVal.b true)]

/-- One client upsert statement against `projects.clients`. -/
def wk_clientUpsert (t : Table) (c : Client) : Except String Table :=
  upsertOnConflict t "wrike_id" (wk_clientInsCols c) (wk_clientUpdCols c)

/-! ## Deliverables sync (`deliverables_sync.py`) and the dependency
resolver (`parent_exists` in `deliverables_sync.py` and `tasks_sync.py`) -/

/-- Membership of a wrike_id in a destination table's key set (the
`SELECT 1 FROM ... WHERE wrike_id = %s LIMIT 1` point lookup). -/
def memStr : List String → String → Bool
  | [], _ => false
  | x :: xs, s => if x = s then true else memStr xs s

/-- `parent_exists` of `WrikeDeliverablesSync` (deliverables_sync.py lines
158–167): a falsy parent id resolves true, otherwise a point lookup
against `projects.childprojects`. -/
def dv_parent_exists (childprojects : List String) (parent_id : Option String) : Bool :=
  match parent_id with
  | Option.none => true
  | some s => if s.isEmpty then true else memStr childprojects s

/-- `parent_exists` of `WrikeTasksSync` (tasks_sync.py lines 158–171): as
above but against `projects.deliverables`, with the synthetic root id
short-circuited to false before the lookup. -/
def ts_parent_exists (deliverables : List String) (parent_id : Option String) : Bool :=
  match parent_id with
  | Option.none => true
  | some s =>
      if s.isEmpty then true
      else if s = "IEAGEMDVI7777777" then false
      else memStr deliverables s

/-- `self.custom_fields` of `WrikeDeliverablesSync.__init__`
(deliverables_sync.py lines 51–63). -/
def dvCustomFieldIds : List (String × String) :=
  [("deliverable_type", "IEAGEMDVJUAFX3LA"), ("deliverable_category", "IEAGEMDVJUAGOJU2"),
   ("proof_id", "IEAGEMDVJUAFZN7T"), ("proof_url", "IEAGEMDVJUAFZQQX"),
   ("proof_version", "IEAGEMDVJUAFZN7V"), ("proof_status", "IEAGEMDVJUAFZN6T"),
   ("proof_error", "IEAGEMDVJUAFZ3KF"), ("google_drive_folder_id", "IEAGEMDVJUAGD64G"),
   ("publish_owner", "IEAGEMDVJUAGNW55"), ("target_pub_date", "IEAGEMDVJUAHD4AP"),
   ("original_date", "IEAGEMDVJUAHES5L")]

/-- One Wrike task/deliverable as consumed by
`process_deliverables_from_folder` (field accesses of lines 210–355). -/
structure Deliv where
  id : String
  title : PyValue
  briefDescription : PyValue
  description : PyValue
  status : Option String
  customStatusId : Option String
  createdDate : Option String
  updatedDate : Option String
  parentIds : List String
  superParentIds : List String
  superTaskIds : List String
  responsibleIds : List String
  dateStart : Option String
  dateDue : Option String
  scope : Option String
  customFields : List (String × PyValue)
  effortAllocation : List (String × PyValue)
  subTaskIds : List String
  dependencyIds : List String
  hasAttachments : Bool
  importance : Option String
  permalink : Option String
  priority : Option String
  billingType : Option String
  customItemTypeId : Option String

/-- `custom_fields_map.get(name)` for a deliverable record. -/
def dvCF (d : Deliv) (name : String) : PyValue :=
  match alookup dvCustomFieldIds name with
  | some fid => get_custom_field_value d.customFields fid
  | Option.none => PyValue.none

/-- Python `x or ''` on an optional string field. -/
def pyOrEmpty (o : Option String) : String :=
  match o with
  | some s => s
  | Option.none => ""

/-- psycopg2 adaptation of a raw Python value into a SQL parameter. -/
def dbOfPy : PyValue → DbVal
  | PyValue.none => DbVal.null
  | PyValue.str s => DbVal.s s
  | PyValue.int n => DbVal.i n
  | PyValue.float q => DbVal.f q
  | PyValue.bool b => DbVal.b b
  | PyValue.list _ => DbVal.null
  | PyValue.dict _ => DbVal.null

/-- `proof_version` handling (deliverables_sync.py lines 243–245):
`None`/`''` defaults to `0`, Python values pass through raw. -/
def dv_proofVersion (d : Deliv) : DbVal :=
  let v := dvCF d "proof_version"
  if v.isNoneOrEmpty then DbVal.i 0 else dbOfPy v

/-- `total_effort` handling (lines 237–240):
`effort_allocation.get('totalEffort', 0)` with a second `None`/`''` guard. -/
def dv_totalEffort (d : Deliv) : DbVal :=
  let v :=
    match alookup d.effortAllocation "totalEffort" with
    | some w => w
    | Option.none => PyValue.int 0
  if v.isNoneOrEmpty then DbVal.i 0 else dbOfPy v

/-- `'\x7b' + ','.join(ids) + '\x7d'` array-literal text (lines 247–253). -/
def curlyJoin (ids : List String) : String :=
  "\x7b" ++ String.intercalate "," ids ++ "\x7d"

/-- The UPDATE SET list of the deliverable statement (deliverables_sync.py
lines 262–298 / parameters of lines 321–356), in statement order. -/
def dv_updCols (d : Deliv) : Cols :=
  [("title", DbVal.s (safe_string d.title)),
   ("brief_description", DbVal.s (safe_string d.briefDescription)),
   ("description", DbVal.s (safe_string d.description)),
   ("status", DbVal.s (pyOrEmpty d.status)),
   ("custom_status_id", optStrVal d.customStatusId),
   ("updated_date", optStrVal d.updatedDate),
   ("parent_id", optStrVal d.parentIds.head?),
   ("super_parent_id", optStrVal d.superParentIds.head?),
   ("super_task_id", DbVal.s (pyOrEmpty d.superTaskIds.head?)),
   ("owner_id", optStrVal d.responsibleIds.head?),
   ("start_date", optStrVal d.dateStart),
   ("due_date", optStrVal d.dateDue),
   ("scope", DbVal.s (pyOrEmpty d.scope)),
   ("deliverable_type", DbVal.s (safe_string (dvCF d "deliverable_type"))),
   ("deliverable_category", DbVal.s (safe_string (dvCF d "deliverable_category"))),
   ("proof_id", DbVal.s (safe_string (dvCF d "proof_id"))),
   ("proof_url", DbVal.s (safe_string (dvCF d "proof_url"))),
   ("proof_version", dv_proofVersion d),
   ("proof_status", DbVal.s (safe_string (dvCF d "proof_status"))),
   ("proof_error", DbVal.s (safe_string (dvCF d "proof_error"))),
   ("drive_id", DbVal.s (safe_string (dvCF d "google_drive_folder_id"))),
   ("publish_owner", DbVal.s (safe_string (dvCF d "publish_owner"))),
   ("total_effort", dv_totalEffort d),
   ("effort_mode", dbOfPy (propGet d.effortAllocation "mode")),
   ("subtask_ids", DbVal.s (curlyJoin d.subTaskIds)),
   ("dependency_ids", DbVal.s (curlyJoin d.dependencyIds)),
   ("has_attachments", DbVal.b d.hasAttachments),
   ("importance", DbVal.s (pyOrEmpty d.importance)),
   ("permalink", optStrVal d.permalink),
   ("priority", DbVal.s (pyOrEmpty d.priority)),
   ("billing_type", optStrVal d.billingType),
   ("custom_item_type_id", optStrVal d.customItemTypeId),
   ("active", DbVal.b true)]

/-- The INSERT column list of the deliverable statement (lines 301–315 /
parameters of lines 359–395), in statement order. -/
def dv_insCols (d : Deliv) : Cols :=
  [("wrike_id", DbVal.s d.id),
   ("title", DbVal.s (safe_string d.title)),
   ("brief_description", DbVal.s (safe_string d.briefDescription)),
   ("description", DbVal.s (safe_string d.description)),
   ("status", DbVal.s (pyOrEmpty d.status)),
   ("custom_status_id", optStrVal d.customStatusId),
   ("created_date", optStrVal d.createdDate),
   ("updated_date", optStrVal d.updatedDate),
   ("parent_id", optStrVal d.parentIds.head?),
   ("super_parent_id", optStrVal d.superParentIds.head?),
   ("super_task_id", DbVal.s (pyOrEmpty d.superTaskIds.head?)),
   ("owner_id", optStrVal d.responsibleIds.head?),
   ("start_date", optStrVal d.dateStart),
   ("due_date", optStrVal d.dateDue),
   ("scope", DbVal.s (pyOrEmpty d.scope)),
   ("deliverable_type", DbVal.s (safe_string (dvCF d "deliverable_type"))),
   ("deliverable_category", DbVal.s (safe_string (dvCF d "deliverable_category"))),
   ("proof_id", DbVal.s (safe_string (dvCF d "proof_id"))),
   ("proof_url", DbVal.s (safe_string (dvCF d "proof_url"))),
   ("proof_version", dv_proofVersion d),
   ("proof_status", DbVal.s (safe_string (dvCF d "proof_status"))),
   ("proof_error", DbVal.s (safe_string (dvCF d "proof_error"))),
   ("drive_id", DbVal.s (safe_string (dvCF d "google_drive_folder_id"))),
   ("publish_owner", DbVal.s (safe_string (dvCF d "publish_owner"))),
   ("total_effort", dv_totalEffort d),
   ("effort_mode", dbOfPy (propGet d.effortAllocation "mode")),
   ("subtask_ids", DbVal.s (curlyJoin d.subTaskIds)),
   ("dependency_ids", DbVal.s (curlyJoin d.dependencyIds)),
   ("has_attachments", DbVal.b d.hasAttachments),
   ("importance", DbVal.s (pyOrEmpty d.importance)),
   ("permalink", optStrVal d.permalink),
   ("priority", DbVal.s (pyOrEmpty d.priority)),
   ("billing_type", optStrVal d.billingType),
   ("custom_item_type_id", optStrVal d.customItemTypeId),
   ("active", DbVal.b true)]

/-- The full deliverable statement: `WITH up AS (UPDATE ... WHERE
wrike_id = %s RETURNING wrike_id) INSERT ... WHERE NOT EXISTS
(SELECT 1 FROM up)`. -/
def dv_upsert (t : Table) (d : Deliv) : Table :=
  updateThenInsert t "wrike_id" (DbVal.s d.id) (dv_updCols d) (dv_insCols d)

/-- External collaborators of a deliverables run: the
`projects.childprojects` key set read by the dependency resolver, the
per-record statement execution outcomes (`cursor.execute` by deliverable
id: `none` = success, an error text = the exception the per-record
`except` catches), and the commit outcomes. -/
structure DelivEnv where
  childprojects : List String
  commit : Nat → Option String
  exec : String → Option String

/-- Batch-loop state for deliverables. -/
structure DvLoopSt where
  pending : Table
  bp : Nat
  bs : Nat
  ids : List String

/-- One record of the deliverable batch loop (lines 208–403): record the
id, run the dependency check (a failed check skips the record without
touching the table), otherwise execute the upsert under the per-record
`try/except` (lines 400–403): a record whose statement execution raises
is counted skipped (`batch_skipped += 1`) and the loop continues. -/
def dv_recordStep (env : DelivEnv) (st : DvLoopSt) (d : Deliv) : DvLoopSt :=
  let st := { st with ids := st.ids ++ [d.id] }
  if dv_parent_exists env.childprojects d.parentIds.head? then
    match env.exec d.id with
    | Option.none => { st with pending := dv_upsert st.pending d, bp := st.bp + 1 }
    | some _ => { st with bs := st.bs + 1 }
  else
    { st with bs := st.bs + 1 }

/-- One failed deliverable batch (lines 416–423). -/
structure DvFailedBatch where
  batchNumber : Nat
  ids : List String
  error : String
  count : Nat
  folderId : String
  deriving DecidableEq, Repr

/-- Run totals of `process_deliverables_from_folder`. -/
structure DvStats where
  committed : Table
  processed : Nat
  skipped : Nat
  failed : List DvFailedBatch
  successes : Nat

/-- One deliverable batch (lines 195–429): loop, then commit or roll back;
a failed batch contributes `len(batch)` to the skip count and a failure
record carrying the attempted ids and error text. -/
def dv_batchStep (env : DelivEnv) (folderId : String) (st : DvStats) (batchNum : Nat)
    (batch : List Deliv) : DvStats :=
  let l := batch.foldl (dv_recordStep env) ⟨st.committed, 0, 0, []⟩
  match env.commit batchNum with
  | Option.none =>
      { st with committed := l.pending, processed := st.processed + l.bp,
                skipped := st.skipped + l.bs, successes := st.successes + 1 }
  | some msg =>
      { st with skipped := st.skipped + batch.length,
                failed := st.failed ++ [⟨batchNum + 1, l.ids, msg, batch.length, folderId⟩] }

/-- The batch loop of `process_deliverables_from_folder`. -/
def dv_run (env : DelivEnv) (folderId : String) :
    Nat → List (List Deliv) → DvStats → DvStats
  | _, [], st => st
  | i, b :: rest, st => dv_run env folderId (i + 1) rest (dv_batchStep env folderId st i b)

/-- The deliverables custom item type id
(`self.custom_item_types['deliverables']`). -/
def deliverablesTypeId : String := "IEAGEMDVPIABWGFL"

/-- `process_deliverables_from_folder` (deliverables_sync.py lines
169–431): filter the folder's tasks down to deliverables, apply the test
limit, and process in batches of 25 starting from the given committed
state.  Counters start at zero for each folder. -/
def process_deliverables_from_folder (env : DelivEnv) (limit : Option Nat)
    (folderId : String) (tasks : List Deliv) (t0 : Table) : DvStats :=
  let ds := tasks.filter (fun d => decide (d.customItemTypeId = some deliverablesTypeId))
  let ds := pyTruncate limit ds
  dv_run env folderId 0 (chunks25 ds) ⟨t0, 0, 0, [], 0⟩

/-- Run totals of the deliverables `run_sync`. -/
structure DvRunTotals where
  committed : Table
  totalProcessed : Nat
  totalSkipped : Nat
  totalFailed : List DvFailedBatch

/-- The folder loop of `run_sync` (deliverables_sync.py lines 462–469):
each child project's deliverables are processed against the table state
left by the previous folder, and the per-folder counters are summed. -/
def dv_folderLoop (env : DelivEnv) (limit : Option Nat) :
    List (String × List Deliv) → DvRunTotals → DvRunTotals
  | [], acc => acc
  | (fid, tasks) :: rest, acc =>
      let st := process_deliverables_from_folder env limit fid tasks acc.committed
      dv_folderLoop env limit rest
        { committed := st.committed,
          totalProcessed := acc.totalProcessed + st.processed,
          totalSkipped := acc.totalSkipped + st.skipped,
          totalFailed := acc.totalFailed ++ st.failed }

/-- `run_sync` of `WrikeDeliverablesSync` (deliverables_sync.py lines
433–482): the discovered child-project folders are themselves truncated
by the test limit, then processed in order.  The same `test_limit` is
applied again per folder inside `process_deliverables_from_folder`, so
the limit bounds records per folder, not per run. -/
def dv_run_sync (env : DelivEnv) (limit : Option Nat)
    (folders : List (String × List Deliv)) (t0 : Table) : DvRunTotals :=
  dv_folderLoop env limit (pyTruncate limit folders) ⟨t0, 0, 0, []⟩

/-- The `'string'` list of `property_mappings` (hubspot_line_items_sync.py lines 58–107). -/
def lineItemProps_string : List String := [
    "name", "description", "hs_sku", "category", "hs_line_item_currency_code",
    "hs_product_type", "hs_tax_label", "hs_tax_category", "hs_tax_rate_group_id",
    "hs_recurring_billing_period", "hs_recurring_billing_terms", "recurringbillingfrequency",
    "hs_billing_start_delay_type", "hs_pricing_model", "hs_tier_prices", "hs_tier_ranges",
    "hs_tiers", "hs_origin_key", "hs_group_key", "hs_images", "hs_url", "hs_all_owner_ids",
    "hs_all_team_ids", "hs_all_accessible_team_ids", "hs_owning_teams", "hs_shared_team_ids",
    "hs_shared_user_ids", "hs_all_assigned_business_unit_ids", "hs_object_source",
    "hs_object_source_id", "hs_object_source_label", "hs_object_source_detail_1",
    "hs_object_source_detail_2", "hs_object_source_detail_3", "hs_merged_object_ids",
    "hs_unique_creation_key", "hs_user_ids_of_all_notification_followers",
    "hs_user_ids_of_all_notification_unfollowers", "hs_user_ids_of_all_owners",
    "ip__sync_extension__external_source_account_id",
    "ip__sync_extension__external_source_app_id"
]

/-- The `'integer'` list of `property_mappings` (hubspot_line_items_sync.py lines 58–107). -/
def lineItemProps_integer : List String := [
    "hubspot_owner_id", "hubspot_team_id", "hs_created_by_user_id", "hs_updated_by_user_id",
    "hs_object_source_user_id"
]

/-- The `'bigint'` list of `property_mappings` (hubspot_line_items_sync.py lines 58–107). -/
def lineItemProps_bigint : List String := [
    "hs_product_id", "hs_variant_id", "hs_bundle_id", "hs_external_id", "hs_object_id"
]

/-- The `'numeric'` list of `property_mappings` (hubspot_line_items_sync.py lines 58–107). -/
def lineItemProps_numeric : List String := [
    "price", "quantity", "amount", "discount", "hs_discount_percentage",
    "hs_pre_discount_amount", "hs_total_discount", "hs_effective_unit_price", "tax",
    "hs_tax_amount", "hs_auto_tax_amount", "hs_tax_rate", "hs_post_tax_amount",
    "hs_cost_of_goods_sold", "hs_margin", "hs_margin_acv", "hs_margin_arr", "hs_margin_mrr",
    "hs_margin_tcv", "hs_acv", "hs_arr", "hs_mrr", "hs_tcv", "hs_term_in_months",
    "hs_recurring_billing_number_of_payments", "hs_billing_start_delay_days",
    "hs_billing_start_delay_months", "hs_tier_amount", "hs_position_on_quote", "points",
    "hs_sync_amount", "hs_buyer_selected_quantity_min", "hs_buyer_selected_quantity_max"
]

/-- The `'boolean'` list of `property_mappings` (hubspot_line_items_sync.py lines 58–107). -/
def lineItemProps_boolean : List String := [
    "hs_is_editable_price", "hs_is_optional", "hs_read_only", "hs_was_imported",
    "hs_allow_buyer_selected_quantity"
]

/-- The `'date'` list of `property_mappings` (hubspot_line_items_sync.py lines 58–107). -/
def lineItemProps_date : List String := [
    "hs_recurring_billing_start_date", "hs_recurring_billing_end_date",
    "hs_billing_period_start_date", "hs_billing_period_end_date"
]

/-- The `'datetime'` list of `property_mappings` (hubspot_line_items_sync.py lines 58–107). -/
def lineItemProps_datetime : List String := [
    "createdate", "hs_createdate", "hs_lastmodifieddate", "hubspot_owner_assigneddate"
]

/-- The key list of the `field_values` dict built for one line item
(hubspot_line_items_sync.py lines 377–417): the four metadata keys, then
one `property_`-prefixed key per configured property, in processing order.
The values (and the subsequent non-null filter of `build_upsert_sql`) can
only remove keys from the written statement, never add any. -/
def lineItemFieldKeys : List String :=
  ["id", "portal_id", "deal_id", "_fivetran_synced"] ++
    (lineItemProps_string ++ lineItemProps_integer ++ lineItemProps_bigint ++
     lineItemProps_numeric ++ lineItemProps_boolean ++ lineItemProps_date ++
     lineItemProps_datetime).map (fun n => "property_" ++ n)

/-- Distinctness of the keys of an association list, phrased recursively:
each head key does not occur again.  Python dicts have this by
construction. -/
def NoDupKeys {α : Type} : List (String × α) → Prop
  | [] => True
  | p :: ps => alookup ps p.1 = Option.none ∧ NoDupKeys ps

/-! ## Claim C6 — string coercion -/

/-- Doubling of every single-quote character, written as a per-character
expansion. -/
def doubleSq (cs : List Char) : List Char :=
  cs.flatMap (fun c => if c = sqChar then [sqChar, sqChar] else [c])

/-- The spec's description of `coerce_string`, for comparison with the
source's `safe_string`: None/empty give the absent marker (the empty
string, this function's only null-ish output); any other value is
stringified with every embedded single quote doubled. -/
def coerceStringSpec (v : PyValue) : String :=
  if v.isNoneOrEmpty then "" else String.mk (doubleSq (pyStr v).data)

/-- Exclusion of the two insert-only columns of the Wrike statements
(`wrike_id`, `created_date`). -/
def notKeyCols (s : String) : Bool := ¬ s = "wrike_id" ∧ ¬ s = "created_date"

/-! ## Batch engine characterization (claims C1, C2, C8, C9) -/

/-- The table effect of attempting one record: the upsert's result when it
succeeds, the untouched pending table when the record raises (the
per-record catch). -/
def applyRecord (m : List (PType × List String)) (now : String)
    (p : Table) (rec : HsRecord) : Table :=
  match hsProcessRecord m now rec p with
  | .ok p2 => p2
  | .error _ => p

/-- The table effect of one whole batch's record loop. -/
def applyBatch (m : List (PType × List String)) (now : String)
    (p : Table) (batch : List HsRecord) : Table :=
  batch.foldl (applyRecord m now) p

/-- Does this record's processing succeed?  (Success is independent of the
pending table: only the id parse and the presence of the `id` column can
fail.) -/
def recOk (m : List (PType × List String)) (now : String) (rec : HsRecord) : Bool :=
  (hsProcessRecord m now rec []).isOk

/-- Number of records of a batch whose processing succeeds. -/
def countOk (m : List (PType × List String)) (now : String)
    (batch : List HsRecord) : Nat :=
  (batch.filter (fun r => recOk m now r)).length

/-- Number of records of a batch whose processing raises (and is caught). -/
def countBad (m : List (PType × List String)) (now : String)
    (batch : List HsRecord) : Nat :=
  (batch.filter (fun r => !(recOk m now r))).length

/-- Batches paired with their `batch_num`, starting at `i`. -/
def enumFrom {α : Type} (i : Nat) : List α → List (Nat × α)
  | [] => []
  | x :: xs => (i, x) :: enumFrom (i + 1) xs

/-- Sum of a numeric measure over a list. -/
def sumWith {α : Type} (f : α → Nat) (l : List α) : Nat := (l.map f).sum

/-- The batches of a run whose commit succeeds, with their indices. -/
def succList (env : CommitEnv) (i : Nat) (bs : List (List HsRecord)) :
    List (Nat × List HsRecord) :=
  (enumFrom i bs).filter (fun p => (env.commit p.1).isNone)

/-- The batches of a run whose commit raises, with their indices. -/
def failList (env : CommitEnv) (i : Nat) (bs : List (List HsRecord)) :
    List (Nat × List HsRecord) :=
  (enumFrom i bs).filter (fun p => (env.commit p.1).isSome)

/-- The failure record produced for a failed batch. -/
def mkFailed (env : CommitEnv) (p : Nat × List HsRecord) : FailedBatch :=
  { batchNumber := p.1 + 1, ids := p.2.map (fun r => r.id),
    error := (env.commit p.1).getD "", count := p.2.length }

/-- A minimal root-level deliverable record (no parent, so the dependency
check passes), used to exhibit the per-folder limit behavior. -/
def dvSample (i : String) : Deliv :=
  { id := i, title := PyValue.none, briefDescription := PyValue.none,
    description := PyValue.none, status := Option.none,
    customStatusId := Option.none, createdDate := Option.none,
    updatedDate := Option.none, parentIds := [], superParentIds := [],
    superTaskIds := [], responsibleIds := [], dateStart := Option.none,
    dateDue := Option.none, scope := Option.none, customFields := [],
    effortAllocation := [], subTaskIds := [], dependencyIds := [],
    hasAttachments := false, importance := Option.none,
    permalink := Option.none, priority := Option.none,
    billingType := Option.none, customItemTypeId := some deliverablesTypeId }

/-- Does this deliverable's per-record processing succeed: the dependency
check passes and the statement execution does not raise. -/
def dvRecOk (env : DelivEnv) (d : Deliv) : Bool :=
  dv_parent_exists env.childprojects d.parentIds.head? && (env.exec d.id).isNone

/-- The table effect of attempting one deliverable: the upsert when the
record processes, the untouched pending table when the dependency check
fails (explicit skip) or the execution raises (the per-record catch). -/
def dvApplyRecord (env : DelivEnv) (t : Table) (d : Deliv) : Table :=
  if dvRecOk env d then dv_upsert t d else t

/-- The table effect of one whole deliverable batch's record loop. -/
def dvApplyBatch (env : DelivEnv) (t : Table) (batch : List Deliv) : Table :=
  batch.foldl (dvApplyRecord env) t

/-- Number of deliverables of a batch that process successfully. -/
def dvCountOk (env : DelivEnv) (batch : List Deliv) : Nat :=
  (batch.filter (dvRecOk env)).length

/-- Number of deliverables of a batch that are skipped per record. -/
def dvCountBad (env : DelivEnv) (batch : List Deliv) : Nat :=
  (batch.filter (fun d => !(dvRecOk env d))).length

/-- The deliverable batches of a run whose commit succeeds, with indices. -/
def dvSuccList (env : DelivEnv) (i : Nat) (bs : List (List Deliv)) :
    List (Nat × List Deliv) :=
  (enumFrom i bs).filter (fun p => (env.commit p.1).isNone)

/-- The deliverable batches of a run whose commit raises, with indices. -/
def dvFailList (env : DelivEnv) (i : Nat) (bs : List (List Deliv)) :
    List (Nat × List Deliv) :=
  (enumFrom i bs).filter (fun p => (env.commit p.1).isSome)

/-- The failure record produced for a failed deliverable batch. -/
def mkDvFailed (env : DelivEnv) (fid : String) (p : Nat × List Deliv) : DvFailedBatch :=
  { batchNumber := p.1 + 1, ids := p.2.map Deliv.id,
    error := (env.commit p.1).getD "", count := p.2.length, folderId := fid }

/-- The deals update clause covers every column except the two excluded
keys (`col not in ('id', 'portal_id')`, hubspot_deals_sync.py line 476). -/
def dealNotKey (s : String) : Bool := ¬ s = "id" ∧ ¬ s = "portal_id"

/-- The column list of `upsert_deal` (hubspot_deals_sync.py lines 471–483):
`columns = list(deal_data.keys())` — every key of the mapped dict is bound,
with a `None` value passed through as SQL `NULL` (no filter drops it). -/
def dealCols (data : List (String × Option DbVal)) : Cols :=
  data.map (fun p => (p.1, p.2.getD DbVal.null))

/-- `update_columns` of `upsert_deal`: all columns except `id`/`portal_id`. -/
def deal_updCols (data : List (String × Option DbVal)) : Cols :=
  (dealCols data).filter (fun p => dealNotKey p.1)

/-- `upsert_deal`: `INSERT ... ON CONFLICT (id) DO UPDATE SET` over every
column of `deal_data`, with no None filtering. -/
def upsert_deal (t : Table) (data : List (String × Option DbVal)) :
    Except String Table :=
  upsertOnConflict t "id" (dealCols data) (deal_updCols data)

/-- The column list of `build_upsert_sql` (hubspot_line_items_sync.py line
455): `valid_fields = {k: v for k, v in field_values.items() if v is not
None}` — None-valued fields are dropped before the statement is built. -/
def build_upsert_sql_cols (fv : List (String × Option DbVal)) : Cols :=
  nonNullCols fv

/-- The line-items update clause: every valid field except `id`. -/
def li_updCols (fv : List (String × Option DbVal)) : Cols :=
  (build_upsert_sql_cols fv).filter (fun p => ¬ p.1 = "id")

/-- The line-items upsert: `INSERT ... ON CONFLICT (id) DO UPDATE SET`
over the None-filtered field list. -/
def upsert_line_item (t : Table) (fv : List (String × Option DbVal)) :
    Except String Table :=
  upsertOnConflict t "id" (build_upsert_sql_cols fv) (li_updCols fv)

theorem alookup_dictInsert {α : Type} (l : List (String × α)) (k c : String) (v : α) :
    alookup (dictInsert l k v) c = if k = c then some v else alookup l c := by
  induction l with
  | nil => simp [dictInsert, alookup]
  | cons p ps ih =>
      by_cases hpk : p.1 = k
      · subst hpk
        by_cases hc : p.1 = c <;> simp [dictInsert, alookup, hc]
      · by_cases hc : p.1 = c
        · subst hc
          have : ¬ k = p.1 := fun h => hpk h.symm
          simp [dictInsert, alookup, hpk, this]
        · simp [dictInsert, alookup, hpk, hc, ih]

theorem setCols_key_untouched (r : Row) (u : Cols) (c : String)
    (h : alookup u c = Option.none) : setCols r u c = r c := by
  simp [setCols, h]

theorem setCols_setCols (r : Row) (u : Cols) :
    setCols (setCols r u) u = setCols r u := by
  funext c
  unfold setCols
  cases alookup u c <;> simp

theorem setCols_rowOf_agree (insCols u : Cols)
    (hag : ∀ c v, alookup u c = some v → alookup insCols c = some v) :
    setCols (rowOf insCols) u = rowOf insCols := by
  funext c
  unfold setCols rowOf
  cases h : alookup u c with
  | none => rfl
  | some v => exact (hag c v h).symm

theorem tableHas_eq_false_iff (t : Table) (key : String) (kv : DbVal) :
    tableHas t key kv = false ↔ ∀ r ∈ t, ¬ r key = some kv := by
  induction t with
  | nil => simp [tableHas]
  | cons r t ih =>
      by_cases h : r key = some kv
      · simp [tableHas, h]
      · simp [tableHas, h, ih]

theorem updateWhere_of_none (t : Table) (key : String) (kv : DbVal) (u : Cols)
    (h : ∀ r ∈ t, ¬ r key = some kv) : updateWhere t key kv u = t := by
  induction t with
  | nil => rfl
  | cons r t ih =>
      have hr : ¬ r key = some kv := h r (by simp)
      simp [updateWhere, hr]
      exact ih fun r hm => h r (by simp [hm])

theorem updateWhere_append (t1 t2 : Table) (key : String) (kv : DbVal) (u : Cols) :
    updateWhere (t1 ++ t2) key kv u = updateWhere t1 key kv u ++ updateWhere t2 key kv u := by
  induction t1 with
  | nil => rfl
  | cons r t ih => simp [updateWhere, ih]

theorem tableHas_updateWhere (t : Table) (key : String) (kv : DbVal) (u : Cols)
    (hkey : alookup u key = Option.none) :
    tableHas (updateWhere t key kv u) key kv = tableHas t key kv := by
  induction t with
  | nil => rfl
  | cons r t ih =>
      by_cases h : r key = some kv
      · simp [updateWhere, tableHas, h, setCols_key_untouched _ _ _ hkey]
      · simp [updateWhere, tableHas, h, ih]

theorem updateWhere_updateWhere (t : Table) (key : String) (kv : DbVal) (u : Cols)
    (hkey : alookup u key = Option.none) :
    updateWhere (updateWhere t key kv u) key kv u = updateWhere t key kv u := by
  induction t with
  | nil => rfl
  | cons r t ih =>
      by_cases h : r key = some kv
      · have h2 : setCols r u key = some kv := by
          rw [setCols_key_untouched _ _ _ hkey]; exact h
        simp [updateWhere, h, h2, setCols_setCols, ih]
      · simp [updateWhere, h, ih]

theorem tableHas_append_hit (t : Table) (r0 : Row) (key : String) (kv : DbVal)
    (h : r0 key = some kv) : tableHas (t ++ [r0]) key kv = true := by
  induction t with
  | nil => simp [tableHas, h]
  | cons r t ih =>
      by_cases hr : r key = some kv
      · simp [tableHas, hr]
      · simp only [List.cons_append, tableHas, if_neg hr]
        exact ih

/-- Idempotence of the shared upsert core: re-executing the same statement
leaves the table unchanged, provided the statement's update list does not
touch the key column, its values agree with its insert values, and the
insert list binds the key column to the conflict value. -/
theorem updateThenInsert_idem (t : Table) (key : String) (kv : DbVal)
    (updCols insCols : Cols)
    (hkey : alookup updCols key = Option.none)
    (hins : alookup insCols key = some kv)
    (hag : ∀ c v, alookup updCols c = some v → alookup insCols c = some v) :
    updateThenInsert (updateThenInsert t key kv updCols insCols) key kv updCols insCols =
      updateThenInsert t key kv updCols insCols := by
  unfold updateThenInsert
  by_cases h : tableHas t key kv = true
  · simp [h, tableHas_updateWhere _ _ _ _ hkey, updateWhere_updateWhere _ _ _ _ hkey]
  · have hf : tableHas t key kv = false := by
      cases hb : tableHas t key kv
      · rfl
      · exact absurd hb h
    have hnew : tableHas (t ++ [rowOf insCols]) key kv = true :=
      tableHas_append_hit t (rowOf insCols) key kv hins
    simp only [hf, Bool.false_eq_true, if_false, hnew, if_true]
    rw [updateWhere_append]
    rw [updateWhere_of_none t key kv updCols ((tableHas_eq_false_iff t key kv).mp hf)]
    have : updateWhere [rowOf insCols] key kv updCols = [rowOf insCols] := by
      have hmatch : rowOf insCols key = some kv := hins
      simp [updateWhere, hmatch, setCols_rowOf_agree _ _ hag]
    rw [this]

/-! ## General lemmas about statement column lists -/

theorem alookup_filter {α : Type} (P : String → Bool) (l : List (String × α)) (c : String) :
    alookup (l.filter (fun p => P p.1)) c =
      if P c then alookup l c else Option.none := by
  induction l with
  | nil => simp [alookup]
  | cons p ps ih =>
      by_cases hp : P p.1 = true
      · by_cases hc : p.1 = c
        · subst hc
          simp [List.filter, hp, alookup]
        · simp [List.filter, hp, alookup, hc, ih]
      · have hp2 : P p.1 = false := by
          cases hb : P p.1
          · rfl
          · exact absurd hb hp
        by_cases hc : p.1 = c
        · subst hc
          simp [List.filter, hp2, alookup, ih, hp2]
        · simp [List.filter, hp2, alookup, hc, ih]

theorem alookup_nonNull (l : List (String × Option DbVal)) (c : String) (v : DbVal)
    (h : alookup l c = some (some v)) : alookup (nonNullCols l) c = some v := by
  induction l with
  | nil => simp [alookup] at h
  | cons p ps ih =>
      by_cases hc : p.1 = c
      · subst hc
        simp [alookup] at h
        simp [nonNullCols, List.filterMap, h, alookup]
      · simp [alookup, hc] at h
        cases hv : p.2 with
        | none => simpa [nonNullCols, List.filterMap, hv] using ih h
        | some w =>
            have := ih h
            simpa [nonNullCols, List.filterMap, hv, alookup, hc] using this

theorem noDupKeys_dictInsert {α : Type} (l : List (String × α)) (k : String) (v : α)
    (h : NoDupKeys l) : NoDupKeys (dictInsert l k v) := by
  induction l with
  | nil => exact ⟨rfl, trivial⟩
  | cons p ps ih =>
      obtain ⟨hpn, hps⟩ := h
      by_cases hp : p.1 = k
      · subst hp
        simp only [dictInsert, if_pos rfl]
        exact ⟨hpn, hps⟩
      · simp only [dictInsert, if_neg hp]
        refine ⟨?_, ih hps⟩
        show alookup (dictInsert ps k v) p.1 = Option.none
        rw [alookup_dictInsert]
        have : ¬ k = p.1 := fun he => hp he.symm
        simp [this, hpn]

theorem alookup_nonNull_of_none (l : List (String × Option DbVal)) (c : String)
    (h : alookup l c = Option.none) : alookup (nonNullCols l) c = Option.none := by
  induction l with
  | nil => rfl
  | cons p ps ih =>
      by_cases hc : p.1 = c
      · simp [alookup, hc] at h
      · simp [alookup, hc] at h
        cases hv : p.2 with
        | none => simpa [nonNullCols, List.filterMap, hv] using ih h
        | some w => simpa [nonNullCols, List.filterMap, hv, alookup, hc] using ih h

theorem alookup_nonNull_none (l : List (String × Option DbVal)) (c : String)
    (hnd : NoDupKeys l)
    (h : alookup l c = some Option.none) : alookup (nonNullCols l) c = Option.none := by
  induction l with
  | nil => simp [alookup] at h
  | cons p ps ih =>
      obtain ⟨hpn, hps⟩ := hnd
      by_cases hc : p.1 = c
      · subst hc
        simp [alookup] at h
        simp [nonNullCols, List.filterMap, h]
        exact alookup_nonNull_of_none ps p.1 hpn
      · simp [alookup, hc] at h
        have ihr := ih hps h
        cases hv : p.2 with
        | none => simpa [nonNullCols, List.filterMap, hv] using ihr
        | some w => simpa [nonNullCols, List.filterMap, hv, alookup, hc] using ihr

/-- Induction principle for `foldlM` in the `Except` monad: a property
preserved by every successful step holds for every successful fold. -/
theorem foldlM_induct {α β ε : Type} (g : β → α → Except ε β) (P : β → Prop)
    (hstep : ∀ b a b2, P b → g b a = .ok b2 → P b2) :
    ∀ (l : List α) (b b2 : β), P b → l.foldlM g b = .ok b2 → P b2 := by
  intro l
  induction l with
  | nil =>
      intro b b2 hb h
      simp only [List.foldlM, pure, Except.pure] at h
      cases h
      exact hb
  | cons a as ih =>
      intro b b2 hb h
      rw [List.foldlM_cons] at h
      cases hg : g b a with
      | error e =>
          rw [hg] at h
          simp [Bind.bind, Except.bind] at h
      | ok b1 =>
          rw [hg] at h
          simp only [Bind.bind, Except.bind] at h
          exact ih b1 b2 (hstep b a b1 hb hg) h

theorem prop_prefixed_data (name : String) :
    ("property_" ++ name).data =
      'p' :: 'r' :: 'o' :: 'p' :: 'e' :: 'r' :: 't' :: 'y' :: '_' :: name.data := by
  cases name
  rfl

theorem propPref_ne_id (name : String) : "property_" ++ name ≠ "id" := by
  intro h
  have h2 := congrArg String.data h
  rw [prop_prefixed_data] at h2
  simp at h2

theorem propPref_ne_is_deleted (name : String) : "property_" ++ name ≠ "is_deleted" := by
  intro h
  have h2 := congrArg String.data h
  rw [prop_prefixed_data] at h2
  simp at h2

theorem propPref_ne_fivetran_deleted (name : String) :
    "property_" ++ name ≠ "_fivetran_deleted" := by
  intro h
  have h2 := congrArg String.data h
  rw [prop_prefixed_data] at h2
  simp at h2

/-- One property-loop step preserves the binding of any key that no
`property_`-prefixed assignment can overwrite. -/
theorem hsPropStep_pres (props : List (String × PyValue)) (pt : PType)
    (k : String) (hk : ∀ name : String, "property_" ++ name ≠ k)
    (acc acc2 : List (String × Option DbVal)) (name : String)
    (h : hsPropStep props pt acc name = .ok acc2) :
    alookup acc2 k = alookup acc k := by
  unfold hsPropStep at h
  cases hco : coerceProp pt (propGet props name) with
  | error e => rw [hco] at h; simp [Except.map] at h
  | ok cv =>
      rw [hco] at h
      simp only [Except.map] at h
      cases h
      rw [alookup_dictInsert]
      simp [hk name]

/-- A `db_values` build preserves the binding of any key that no
`property_`-prefixed assignment can overwrite: its value is the one given
by the metadata entries. -/
theorem hsDbValues_key_pres (m : List (PType × List String)) (now : String)
    (rec : HsRecord) (l : List (String × Option DbVal)) (k : String)
    (hk : ∀ name : String, "property_" ++ name ≠ k)
    (idVal : Option DbVal) (hid : hsIdVal rec = .ok idVal)
    (h : hsDbValues m now rec = .ok l) :
    alookup l k = alookup (hsBase now idVal) k := by
  unfold hsDbValues at h
  rw [hid] at h
  simp only [Except.bind] at h
  refine foldlM_induct _ (fun acc => alookup acc k = alookup (hsBase now idVal) k)
    ?_ _ _ _ rfl h
  intro b a b2 hb hstep
  refine foldlM_induct _ (fun acc => alookup acc k = alookup (hsBase now idVal) k)
    ?_ _ _ _ hb hstep
  intro c nm c2 hc hstep2
  rw [hsPropStep_pres rec.properties a.1 k hk c c2 nm hstep2]
  exact hc

/-- A `db_values` build has distinct keys (it is a Python dict). -/
theorem hsDbValues_noDup (m : List (PType × List String)) (now : String)
    (rec : HsRecord) (l : List (String × Option DbVal))
    (h : hsDbValues m now rec = .ok l) : NoDupKeys l := by
  unfold hsDbValues at h
  cases hid : hsIdVal rec with
  | error e => rw [hid] at h; simp [Except.bind] at h
  | ok idVal =>
      rw [hid] at h
      simp only [Except.bind] at h
      have hbase : NoDupKeys (hsBase now idVal) := by
        exact ⟨rfl, rfl, rfl, rfl, rfl, trivial⟩
      refine foldlM_induct _ NoDupKeys ?_ _ _ _ hbase h
      intro b a b2 hb hstep
      refine foldlM_induct _ NoDupKeys ?_ _ _ _ hb hstep
      intro c nm c2 hc hstep2
      unfold hsPropStep at hstep2
      cases hco : coerceProp a.1 (propGet rec.properties nm) with
      | error e => rw [hco] at hstep2; simp [Except.map] at hstep2
      | ok cv =>
          rw [hco] at hstep2
          simp only [Except.map] at hstep2
          cases hstep2
          exact noDupKeys_dictInsert _ _ _ hc

theorem replaceSq_go_eq_doubleSq (cs : List Char) : replaceSq.go cs = doubleSq cs := by
  induction cs with
  | nil => rfl
  | cons c rest ih =>
      simp only [replaceSq.go]
      unfold doubleSq at ih ⊢
      rw [List.flatMap_cons]
      by_cases hc : c = sqChar
      · rw [if_pos hc, if_pos hc, ih]
        rfl
      · rw [if_neg hc, if_neg hc, ih]
        rfl

theorem replaceSq_eq_doubleSq (s : String) :
    replaceSq s = String.mk (doubleSq s.data) := by
  unfold replaceSq
  rw [replaceSq_go_eq_doubleSq]

/-- C6 (confirmed): for every input, `safe_string` returns the absent
marker (the empty string) when the value is None or the empty string, and
otherwise the stringification of the value with every embedded single
quote doubled — i.e. it agrees everywhere with the spec's description. -/
theorem safe_string_matches_spec (v : PyValue) : safe_string v = coerceStringSpec v := by
  cases v with
  | none => rfl
  | str s =>
      by_cases hs : s.isEmpty
      · have : s = "" := (String.isEmpty_iff s).mp hs
        subst this
        rfl
      · have hne : s.isEmpty = false := by
          cases hb : s.isEmpty
          · rfl
          · exact absurd hb hs
        simp [safe_string, coerceStringSpec, PyValue.isNoneOrEmpty, hne,
          replaceSq_eq_doubleSq]
  | int n => simp [safe_string, coerceStringSpec, PyValue.isNoneOrEmpty, replaceSq_eq_doubleSq]
  | float q => simp [safe_string, coerceStringSpec, PyValue.isNoneOrEmpty, replaceSq_eq_doubleSq]
  | bool b => simp [safe_string, coerceStringSpec, PyValue.isNoneOrEmpty, replaceSq_eq_doubleSq]
  | list xs => simp [safe_string, coerceStringSpec, PyValue.isNoneOrEmpty, replaceSq_eq_doubleSq]
  | dict xs => simp [safe_string, coerceStringSpec, PyValue.isNoneOrEmpty, replaceSq_eq_doubleSq]

/-! ## Claim C3 — coercion totality (code bug)

`safe_number` and `safe_datetime` guard with
`except (ValueError, TypeError)`, but `float()` / `/ 1000` of a
sufficiently large integer raise `OverflowError`, which is not a subclass
of either and escapes.  The spec's totality statement ("never raises",
"never throws on overflow") is the evident intent of functions named
`safe_*` whose whole body is a try/except; the exception tuple is simply
too narrow. -/

set_option maxRecDepth 8000 in
/-- C3 (code bug): a millisecond-epoch (or numeric) property holding the
integer `10^400` makes `safe_number` and `safe_datetime` raise
`OverflowError` instead of returning the absent marker. -/
theorem safe_number_datetime_overflow :
    safe_number (PyValue.int (Int.ofNat (10 ^ 400))) = .error .overflowError ∧
    safe_datetime (PyValue.int (Int.ofNat (10 ^ 400))) = .error .overflowError := by
  constructor
  · decide
  · decide

/-! ## Claim C4 — upsert idempotence -/

theorem alookup_filter_ne (l : Cols) (k0 c : String) :
    alookup (l.filter (fun p => ¬ p.1 = k0)) c =
      if c = k0 then Option.none else alookup l c := by
  have h := alookup_filter (fun s => decide (¬ s = k0)) l c
  by_cases hc : c = k0
  · simp [hc] at h ⊢
    exact h
  · simp [hc] at h ⊢
    exact h

/-- The companies/contacts update clause `field = EXCLUDED.field for field
not in ['id']` does not touch the key and agrees with the insert list. -/
theorem filter_ne_key_agrees (ins : Cols) (k0 : String) :
    alookup (ins.filter (fun p => ¬ p.1 = k0)) k0 = Option.none ∧
    (∀ c v, alookup (ins.filter (fun p => ¬ p.1 = k0)) c = some v →
      alookup ins c = some v) := by
  constructor
  · rw [alookup_filter_ne]
    simp
  · intro c v h
    rw [alookup_filter_ne] at h
    by_cases hc : c = k0
    · simp [hc] at h
    · simpa [hc] using h

theorem alookup_map_snd {α β : Type} (g : α → β) (l : List (String × α)) (c : String) :
    alookup (l.map (fun p => (p.1, g p.2))) c = (alookup l c).map g := by
  induction l with
  | nil => rfl
  | cons p ps ih =>
      by_cases hc : p.1 = c
      · simp [alookup, hc]
      · simp [alookup, hc, ih]

/-- The deliverable UPDATE list is the INSERT list minus `wrike_id` and
`created_date` (same columns, same values, same order). -/
theorem dv_updCols_eq_filter (d : Deliv) :
    dv_updCols d = (dv_insCols d).filter (fun p => notKeyCols p.1) := rfl

/-- The client UPDATE list is the INSERT list minus `wrike_id` and
`created_date`. -/
theorem wk_clientUpdCols_eq_filter (c : Client) :
    wk_clientUpdCols c = (wk_clientInsCols c).filter (fun p => notKeyCols p.1) := rfl

/-- The Wrike update lists (insert list filtered by `notKeyCols`) do not
touch `wrike_id` and agree with the insert values. -/
theorem filter_notKeyCols_agrees (ins : Cols) :
    alookup (ins.filter (fun p => notKeyCols p.1)) "wrike_id" = Option.none ∧
    (∀ c v, alookup (ins.filter (fun p => notKeyCols p.1)) c = some v →
      alookup ins c = some v) := by
  constructor
  · rw [alookup_filter]
    simp [notKeyCols]
  · intro c v h
    rw [alookup_filter] at h
    cases hb : notKeyCols c
    · rw [hb] at h
      simp at h
    · rw [hb] at h
      simpa using h

/-- C4 (confirmed): executing the same record's upsert twice leaves the
destination exactly as after one execution — for the dynamic
`INSERT ... ON CONFLICT (id) DO UPDATE` statement of the HubSpot companies
sync, for the fixed `ON CONFLICT (wrike_id)` statement of the Wrike client
sync, and for the `WITH up AS (UPDATE ...) INSERT ... WHERE NOT EXISTS`
statement of the deliverables sync. -/
theorem upsert_idempotent :
    (∀ (now : String) (rec : HsRecord) (t t1 : Table),
        hsProcessRecord companyPropertyMappings now rec t = .ok t1 →
        hsProcessRecord companyPropertyMappings now rec t1 = .ok t1) ∧
    (∀ (c : Client) (t t1 : Table),
        wk_clientUpsert t c = .ok t1 → wk_clientUpsert t1 c = .ok t1) ∧
    (∀ (d : Deliv) (t : Table), dv_upsert (dv_upsert t d) d = dv_upsert t d) := by
  refine ⟨?_, ?_, ?_⟩
  · intro now rec t t1 h
    unfold hsProcessRecord at h ⊢
    cases hdb : hsDbValues companyPropertyMappings now rec with
    | error e =>
        rw [hdb] at h
        simp at h
    | ok dbv =>
        rw [hdb] at h
        dsimp only [] at h ⊢
        unfold upsertOnConflict at h ⊢
        cases hk : alookup (nonNullCols dbv) "id" with
        | none =>
            rw [hk] at h
            simp at h
        | some kv =>
            rw [hk] at h
            dsimp only [] at h ⊢
            cases h
            refine congrArg Except.ok ?_
            obtain ⟨h1, h2⟩ := filter_ne_key_agrees (nonNullCols dbv) "id"
            exact updateThenInsert_idem _ _ _ _ _ h1 hk h2
  · intro c t t1 h
    unfold wk_clientUpsert upsertOnConflict at h ⊢
    have hk : alookup (wk_clientInsCols c) "wrike_id" = some (DbVal.s c.id) := rfl
    rw [hk] at h ⊢
    dsimp only [] at h ⊢
    cases h
    refine congrArg Except.ok ?_
    obtain ⟨h1, h2⟩ := filter_notKeyCols_agrees (wk_clientInsCols c)
    rw [wk_clientUpdCols_eq_filter]
    exact updateThenInsert_idem _ _ _ _ _ h1 hk h2
  · intro d t
    unfold dv_upsert
    have hk : alookup (dv_insCols d) "wrike_id" = some (DbVal.s d.id) := rfl
    obtain ⟨h1, h2⟩ := filter_notKeyCols_agrees (dv_insCols d)
    rw [dv_updCols_eq_filter]
    exact updateThenInsert_idem _ _ _ _ _ h1 hk h2

/-! ## Claim C5 — null-omission frame property -/

theorem updateWhere_length (t : Table) (key : String) (kv : DbVal) (u : Cols) :
    (updateWhere t key kv u).length = t.length := by
  induction t with
  | nil => rfl
  | cons r t ih => simp [updateWhere, ih]

theorem updateWhere_get (t : Table) (key : String) (kv : DbVal) (u : Cols)
    (i : Nat) (hi : i < t.length) (hi2 : i < (updateWhere t key kv u).length) :
    (updateWhere t key kv u).get ⟨i, hi2⟩ =
      if (t.get ⟨i, hi⟩) key = some kv then setCols (t.get ⟨i, hi⟩) u
      else t.get ⟨i, hi⟩ := by
  induction t generalizing i with
  | nil => cases hi
  | cons r t ih =>
      cases i with
      | zero => rfl
      | succ j =>
          have hj : j < t.length := Nat.lt_of_succ_lt_succ hi
          have hj2 : j < (updateWhere t key kv u).length := by
            rw [updateWhere_length]
            exact hj
          exact ih j hj hj2

theorem updateThenInsert_get_frame (t : Table) (key : String) (kv : DbVal)
    (upd ins : Cols) (f : String) (hf : alookup upd f = Option.none)
    (i : Nat) (hi : i < t.length) :
    ∀ hi2 : i < (updateThenInsert t key kv upd ins).length,
      ((updateThenInsert t key kv upd ins).get ⟨i, hi2⟩) f = (t.get ⟨i, hi⟩) f := by
  unfold updateThenInsert
  by_cases h : tableHas t key kv = true
  · rw [if_pos h]
    intro hi2
    rw [updateWhere_get t key kv upd i hi hi2]
    by_cases hm : (t.get ⟨i, hi⟩) key = some kv
    · rw [if_pos hm]
      exact setCols_key_untouched _ _ _ hf
    · rw [if_neg hm]
  · rw [if_neg h]
    intro hi2
    exact congrFun (List.get_append_left t [rowOf ins] hi) f

/-- C5 (amended; holds for the dynamic-statement HubSpot engine of the
companies and contacts syncs — the first two conjuncts are generic in the
property-mapping table — and for the line-items `build_upsert_sql`, which
drops None-valued fields before building its statement): every entry that
coerced to `None` is omitted from the statement's column list, and
executing the record's upsert leaves the value of that column unchanged
in every previously stored row.  The amendment's exceptions: the deals
`upsert_deal` binds every key of `deal_data` without filtering, so an
absent field's column is set to SQL `NULL` in the conflict-update clause
(fourth conjunct) and overwrites the stored value; and the Wrike
fixed-column statements bind every column on every execution (e.g.
`description` is always written, as the last conjunct shows), so an
absent payload value overwrites the stored one there too. -/
theorem null_omission_frame :
    (∀ (m : List (PType × List String)) (now : String) (rec : HsRecord)
        (dbv : List (String × Option DbVal)),
        hsDbValues m now rec = .ok dbv →
        ∀ f, alookup dbv f = some Option.none →
          alookup (nonNullCols dbv) f = Option.none) ∧
    (∀ (m : List (PType × List String)) (now : String) (rec : HsRecord)
        (dbv : List (String × Option DbVal)) (t t1 : Table) (f : String),
        hsDbValues m now rec = .ok dbv →
        alookup dbv f = some Option.none →
        hsProcessRecord m now rec t = .ok t1 →
        ∀ (i : Nat) (hi : i < t.length) (hi2 : i < t1.length),
          (t1.get ⟨i, hi2⟩) f = (t.get ⟨i, hi⟩) f) ∧
    (∀ (fv : List (String × Option DbVal)) (f : String),
        NoDupKeys fv → alookup fv f = some Option.none →
        alookup (build_upsert_sql_cols fv) f = Option.none ∧
        ∀ (t t1 : Table), upsert_line_item t fv = .ok t1 →
          ∀ (i : Nat) (hi : i < t.length) (hi2 : i < t1.length),
            (t1.get ⟨i, hi2⟩) f = (t.get ⟨i, hi⟩) f) ∧
    (∀ (data : List (String × Option DbVal)) (f : String),
        ¬ f = "id" → ¬ f = "portal_id" → alookup data f = some Option.none →
        alookup (deal_updCols data) f = some DbVal.null) ∧
    (∀ d : Deliv, alookup (dv_updCols d) "description" =
        some (DbVal.s (safe_string d.description))) := by
  refine ⟨?_, ?_, ?_, ?_, ?_⟩
  · intro m now rec dbv hdb f hf
    exact alookup_nonNull_none dbv f (hsDbValues_noDup _ _ _ _ hdb) hf
  · intro m now rec dbv t t1 f hdb hf h i hi hi2
    have homit : alookup (nonNullCols dbv) f = Option.none :=
      alookup_nonNull_none dbv f (hsDbValues_noDup _ _ _ _ hdb) hf
    unfold hsProcessRecord at h
    rw [hdb] at h
    dsimp only [] at h
    unfold upsertOnConflict at h
    cases hk : alookup (nonNullCols dbv) "id" with
    | none =>
        rw [hk] at h
        simp at h
    | some kv =>
        rw [hk] at h
        dsimp only [] at h
        cases h
        have hupd : alookup ((nonNullCols dbv).filter (fun p => ¬ p.1 = "id")) f =
            Option.none := by
          rw [alookup_filter_ne]
          by_cases hfid : f = "id"
          · simp [hfid]
          · simp [hfid, homit]
        exact updateThenInsert_get_frame t "id" kv _ _ f hupd i hi hi2
  · intro fv f hnd hf
    have homit : alookup (build_upsert_sql_cols fv) f = Option.none :=
      alookup_nonNull_none fv f hnd hf
    refine ⟨homit, ?_⟩
    intro t t1 h i hi hi2
    unfold upsert_line_item upsertOnConflict at h
    cases hk : alookup (build_upsert_sql_cols fv) "id" with
    | none =>
        rw [hk] at h
        simp at h
    | some kv =>
        rw [hk] at h
        dsimp only [] at h
        cases h
        have hupd : alookup (li_updCols fv) f = Option.none := by
          unfold li_updCols
          rw [alookup_filter_ne]
          by_cases hfid : f = "id"
          · simp [hfid]
          · simp [hfid, homit]
        exact updateThenInsert_get_frame t "id" kv _ _ f hupd i hi hi2
  · intro data f hf1 hf2 hdata
    unfold deal_updCols
    have h := alookup_filter dealNotKey (dealCols data) f
    have hk : dealNotKey f = true := by simp [dealNotKey, hf1, hf2]
    rw [h, if_pos hk]
    unfold dealCols
    rw [alookup_map_snd (fun o => o.getD DbVal.null) data f, hdata]
    rfl
  · intro d
    rfl

/-- C5 counterexample: two upserts that do not omit absent-valued
columns.  First the deliverable statement: seed the destination with a
row whose `description` is `'keep'`, then upsert the same `wrike_id` with
a payload lacking `description`: the stored value becomes the empty
string (`safe_string(None) = ''`), not the preserved `'keep'`.  Then the
deals statement: seed a row whose `property_foo` is `'old'`, then run
`upsert_deal` with a `deal_data` whose `property_foo` is `None`: the
stored value becomes SQL `NULL`, not the preserved `'old'`. -/
theorem absent_value_overwrite :
    ((dv_upsert
        [fun c => if c = "wrike_id" then some (DbVal.s "D1")
          else if c = "description" then some (DbVal.s "keep") else Option.none]
        { id := "D1", title := PyValue.none, briefDescription := PyValue.none,
          description := PyValue.none, status := Option.none,
          customStatusId := Option.none, createdDate := Option.none,
          updatedDate := Option.none, parentIds := [], superParentIds := [],
          superTaskIds := [], responsibleIds := [], dateStart := Option.none,
          dateDue := Option.none, scope := Option.none, customFields := [],
          effortAllocation := [], subTaskIds := [], dependencyIds := [],
          hasAttachments := false, importance := Option.none,
          permalink := Option.none, priority := Option.none,
          billingType := Option.none,
          customItemTypeId := some deliverablesTypeId }).head?.map
      (fun r => r "description")) = some (some (DbVal.s "")) ∧
    ¬ (some (some (DbVal.s "")) : Option (Option DbVal)) = some (some (DbVal.s "keep")) ∧
    ((upsert_deal
        [fun c => if c = "id" then some (DbVal.s "7")
          else if c = "property_foo" then some (DbVal.s "old") else Option.none]
        [("id", some (DbVal.s "7")), ("property_foo", Option.none)]).toOption.map
      (fun t => t.head?.map (fun r => r "property_foo"))) =
        some (some (some DbVal.null)) ∧
    ¬ (some (some (some DbVal.null)) : Option (Option (Option DbVal))) =
        some (some (some (DbVal.s "old"))) := by
  refine ⟨?_, ?_, ?_, ?_⟩
  · decide
  · decide
  · decide
  · decide

/-! ## Claim C7 — dependency resolver -/

/-- C7 counterexample: `parent_exists` of the deliverables sync has no
sentinel-root short-circuit; on a destination whose `childprojects` table
happens to contain the sentinel id it resolves `true`, while the claim
demands `false` regardless of destination contents. -/
theorem dv_parent_exists_sentinel_lookup :
    dv_parent_exists ["IEAGEMDVI7777777"] (some "IEAGEMDVI7777777") = true := by
  decide

/-- C7 (amended): a falsy parent reference resolves true in both
resolvers; the sentinel-root short circuit exists only in the tasks sync's
resolver (which returns false for it regardless of destination contents);
the deliverables resolver — like every non-sentinel lookup — resolves by a
point lookup against the parent table; and a failed check makes the
deliverable record loop skip the record (one more skip, table untouched,
no error) and continue. -/
theorem parent_exists_amended :
    (∀ cp : List String, dv_parent_exists cp Option.none = true ∧
        dv_parent_exists cp (some "") = true ∧
        ts_parent_exists cp Option.none = true ∧
        ts_parent_exists cp (some "") = true) ∧
    (∀ dl : List String, ts_parent_exists dl (some "IEAGEMDVI7777777") = false) ∧
    (∀ (cp : List String) (s : String), ¬ s = "" →
        dv_parent_exists cp (some s) = memStr cp s) ∧
    (∀ (dl : List String) (s : String), ¬ s = "" → ¬ s = "IEAGEMDVI7777777" →
        ts_parent_exists dl (some s) = memStr dl s) ∧
    (∀ (env : DelivEnv) (st : DvLoopSt) (d : Deliv),
        dv_parent_exists env.childprojects d.parentIds.head? = false →
        dv_recordStep env st d =
          { pending := st.pending, bp := st.bp, bs := st.bs + 1,
            ids := st.ids ++ [d.id] }) := by
  refine ⟨?_, ?_, ?_, ?_, ?_⟩
  · intro cp
    exact ⟨rfl, rfl, rfl, rfl⟩
  · intro dl
    rfl
  · intro cp s hs
    unfold dv_parent_exists
    have he : s.isEmpty = false := by
      cases hb : s.isEmpty
      · rfl
      · exact absurd ((String.isEmpty_iff s).mp hb) hs
    simp [he]
  · intro dl s hs hsent
    unfold ts_parent_exists
    have he : s.isEmpty = false := by
      cases hb : s.isEmpty
      · rfl
      · exact absurd ((String.isEmpty_iff s).mp hb) hs
    simp [he, hsent]
  · intro env st d h
    unfold dv_recordStep
    rw [h]
    rfl

/-! ## Claim C10 — live-flag invariant -/

/-- C10 counterexample: the HubSpot line-items write carries no deletion
flag at all — neither `is_deleted` nor `_fivetran_deleted` is among the
keys of its `field_values` dict, so they cannot appear in the generated
statement. -/
theorem lineitem_write_lacks_deleted_flags :
    ¬ "is_deleted" ∈ lineItemFieldKeys ∧ ¬ "_fivetran_deleted" ∈ lineItemFieldKeys := by
  constructor
  · decide
  · decide

theorem mem_updateWhere (t : Table) (key : String) (kv : DbVal) (u : Cols)
    (r : Row) (hr : r ∈ t) (hm : ¬ r key = some kv) :
    r ∈ updateWhere t key kv u := by
  induction t with
  | nil => cases hr
  | cons r0 t ih =>
      rcases List.mem_cons.mp hr with h0 | h0
      · subst h0
        simp only [updateWhere, if_neg hm]
        exact List.mem_cons_self _ _
      · simp only [updateWhere]
        exact List.mem_cons_of_mem _ (ih h0)

/-- C10 (amended): every companies-sync write includes
`is_deleted = FALSE` and `_fivetran_deleted = FALSE`; every modelled Wrike
write (clients, deliverables) binds `active = TRUE` both on insert and on
update; and no upsert removes or alters a row whose key does not match
the statement's key — in particular nothing is ever deleted or marked
deleted by a sync, and rows absent from the current extraction are left
unchanged.  The deals and line-items syncs are the amendment's exception:
their writes carry no deletion flags at all (see the counterexample),
though they too never delete. -/
theorem live_flag_amended :
    (∀ (now : String) (rec : HsRecord) (dbv : List (String × Option DbVal)),
        hsDbValues companyPropertyMappings now rec = .ok dbv →
        alookup (nonNullCols dbv) "is_deleted" = some (DbVal.b false) ∧
        alookup (nonNullCols dbv) "_fivetran_deleted" = some (DbVal.b false)) ∧
    (∀ c : Client, alookup (wk_clientInsCols c) "active" = some (DbVal.b true) ∧
        alookup (wk_clientUpdCols c) "active" = some (DbVal.b true)) ∧
    (∀ d : Deliv, alookup (dv_insCols d) "active" = some (DbVal.b true) ∧
        alookup (dv_updCols d) "active" = some (DbVal.b true)) ∧
    (∀ (t : Table) (key : String) (kv : DbVal) (upd ins : Cols) (r : Row),
        r ∈ t → ¬ r key = some kv → r ∈ updateThenInsert t key kv upd ins) := by
  refine ⟨?_, ?_, ?_, ?_⟩
  · intro now rec dbv hdb
    have hid : ∃ idVal, hsIdVal rec = .ok idVal := by
      cases hiv : hsIdVal rec with
      | error e =>
          unfold hsDbValues at hdb
          rw [hiv] at hdb
          simp [Except.bind] at hdb
      | ok idVal => exact ⟨idVal, rfl⟩
    obtain ⟨idVal, hiv⟩ := hid
    constructor
    · have h1 := hsDbValues_key_pres companyPropertyMappings now rec dbv
        "is_deleted" propPref_ne_is_deleted idVal hiv hdb
      exact alookup_nonNull dbv "is_deleted" (DbVal.b false) (by rw [h1]; rfl)
    · have h1 := hsDbValues_key_pres companyPropertyMappings now rec dbv
        "_fivetran_deleted" propPref_ne_fivetran_deleted idVal hiv hdb
      exact alookup_nonNull dbv "_fivetran_deleted" (DbVal.b false) (by rw [h1]; rfl)
  · intro c
    exact ⟨rfl, rfl⟩
  · intro d
    exact ⟨rfl, rfl⟩
  · intro t key kv upd ins r hr hm
    unfold updateThenInsert
    by_cases h : tableHas t key kv = true
    · rw [if_pos h]
      exact mem_updateWhere t key kv upd r hr hm
    · rw [if_neg h]
      exact List.mem_append_left _ hr

theorem hsProcessRecord_isOk_indep (m : List (PType × List String)) (now : String)
    (rec : HsRecord) (p : Table) :
    (hsProcessRecord m now rec p).isOk = recOk m now rec := by
  unfold recOk hsProcessRecord
  cases hsDbValues m now rec with
  | error e => rfl
  | ok dbv =>
      dsimp only []
      unfold upsertOnConflict
      cases alookup (nonNullCols dbv) "id" <;> rfl

theorem countOk_add_countBad (m : List (PType × List String)) (now : String)
    (batch : List HsRecord) :
    countOk m now batch + countBad m now batch = batch.length := by
  induction batch with
  | nil => rfl
  | cons r rs ih =>
      unfold countOk countBad at ih ⊢
      cases hr : recOk m now r <;> simp [List.filter, hr] <;> omega

/-- Characterization of the per-batch record loop: the pending table
accumulates the successful upserts, the counters count successes and
caught failures, and the id list records every attempted record. -/
theorem hsBatchLoop_spec (m : List (PType × List String)) (now : String)
    (batch : List HsRecord) (st0 : BatchLoopSt) :
    batch.foldl
      (fun st rec =>
        let st := { st with ids := st.ids ++ [rec.id] }
        match hsProcessRecord m now rec st.pending with
        | .ok p => { st with pending := p, bp := st.bp + 1 }
        | .error _ => { st with bs := st.bs + 1 })
      st0 =
    { pending := applyBatch m now st0.pending batch,
      bp := st0.bp + countOk m now batch,
      bs := st0.bs + countBad m now batch,
      ids := st0.ids ++ batch.map (fun r => r.id) } := by
  induction batch generalizing st0 with
  | nil => simp [applyBatch, countOk, countBad]
  | cons r rs ih =>
      rw [List.foldl_cons]
      cases hrec : hsProcessRecord m now r st0.pending with
      | ok p2 =>
          have hok : recOk m now r = true := by
            rw [← hsProcessRecord_isOk_indep m now r st0.pending, hrec]
            rfl
          simp only [hrec]
          rw [ih]
          unfold applyBatch countOk countBad
          simp only [List.foldl_cons, List.filter, hok, Bool.not_true, List.map_cons]
          have hap : applyRecord m now st0.pending r = p2 := by
            unfold applyRecord
            rw [hrec]
          rw [hap]
          simp [List.length_cons, List.append_assoc]
          omega
      | error e =>
          have hbad : recOk m now r = false := by
            rw [← hsProcessRecord_isOk_indep m now r st0.pending, hrec]
            rfl
          simp only [hrec]
          rw [ih]
          unfold applyBatch countOk countBad
          simp only [List.foldl_cons, List.filter, hbad, Bool.not_false, List.map_cons]
          have hap : applyRecord m now st0.pending r = st0.pending := by
            unfold applyRecord
            rw [hrec]
          rw [hap]
          simp [List.length_cons, List.append_assoc]
          omega

theorem hsBatchLoop_eq (m : List (PType × List String)) (now : String)
    (batch : List HsRecord) (p0 : Table) :
    hsBatchLoop m now batch p0 =
      { pending := applyBatch m now p0 batch,
        bp := countOk m now batch,
        bs := countBad m now batch,
        ids := batch.map (fun r => r.id) } := by
  unfold hsBatchLoop
  rw [hsBatchLoop_spec]
  simp

/-- Full characterization of the companies batch loop: the committed table
is the in-order fold of exactly the successfully committed batches'
effects; the failed-batch list records exactly the commit-failing batches,
each once, in order, with its full attempted id list and error text; the
processed/skipped totals come from successful batches' per-record
tallies plus the full size of each failed batch. -/
theorem companiesRun_spec (env : CommitEnv) (bs : List (List HsRecord)) :
    ∀ (i : Nat) (st : SyncStats),
    companiesRun env i bs st =
      { committed := (succList env i bs).foldl
          (fun t p => applyBatch companyPropertyMappings env.now t p.2) st.committed,
        processed := st.processed +
          sumWith (fun p => countOk companyPropertyMappings env.now p.2) (succList env i bs),
        skipped := st.skipped +
          sumWith (fun p => countBad companyPropertyMappings env.now p.2) (succList env i bs) +
          sumWith (fun p => p.2.length) (failList env i bs),
        failed := st.failed ++ (failList env i bs).map (mkFailed env),
        successes := st.successes + (succList env i bs).length } := by
  induction bs with
  | nil =>
      intro i st
      simp [companiesRun, succList, failList, enumFrom, sumWith]
  | cons b rest ih =>
      intro i st
      show companiesRun env (i + 1) rest (companiesBatchStep env st i b) = _
      unfold companiesBatchStep
      rw [hsBatchLoop_eq]
      cases hc : env.commit i with
      | none =>
          dsimp only []
          rw [ih]
          have hsucc : succList env i (b :: rest) =
              (i, b) :: succList env (i + 1) rest := by
            simp [succList, enumFrom, List.filter, hc]
          have hfail : failList env i (b :: rest) = failList env (i + 1) rest := by
            simp [failList, enumFrom, List.filter, hc]
          rw [hsucc, hfail]
          simp only [List.foldl_cons, sumWith, List.map_cons, List.sum_cons,
            List.length_cons]
          congr 1 <;> first | rfl | omega
      | some msg =>
          dsimp only []
          rw [ih]
          have hsucc : succList env i (b :: rest) = succList env (i + 1) rest := by
            simp [succList, enumFrom, List.filter, hc]
          have hfail : failList env i (b :: rest) =
              (i, b) :: failList env (i + 1) rest := by
            simp [failList, enumFrom, List.filter, hc]
          rw [hsucc, hfail]
          simp only [List.map_cons, sumWith, List.sum_cons, List.length_cons]
          congr 1
          · omega
          · rw [List.append_assoc]
            simp [mkFailed, hc]

/-- Characterization of the per-batch deliverable record loop: the pending
table accumulates the successful upserts, the counters count successes and
skips (failed dependency checks and caught per-record exceptions alike),
and the id list records every attempted record. -/
theorem dv_loop_spec (env : DelivEnv) (batch : List Deliv) :
    ∀ st0 : DvLoopSt,
      batch.foldl (dv_recordStep env) st0 =
        { pending := dvApplyBatch env st0.pending batch,
          bp := st0.bp + dvCountOk env batch,
          bs := st0.bs + dvCountBad env batch,
          ids := st0.ids ++ batch.map Deliv.id } := by
  induction batch with
  | nil =>
      intro st0
      simp [dvApplyBatch, dvCountOk, dvCountBad]
  | cons d ds ih =>
      intro st0
      rw [List.foldl_cons, ih]
      unfold dv_recordStep
      by_cases hp : dv_parent_exists env.childprojects d.parentIds.head? = true
      · rw [if_pos hp]
        cases he : env.exec d.id with
        | none =>
            have hok : dvRecOk env d = true := by simp [dvRecOk, hp, he]
            unfold dvApplyBatch dvCountOk dvCountBad
            simp only [List.foldl_cons, List.filter, hok, Bool.not_true, List.map_cons]
            have hap : dvApplyRecord env st0.pending d = dv_upsert st0.pending d := by
              simp [dvApplyRecord, hok]
            rw [hap]
            simp [List.length_cons, List.append_assoc]
            omega
        | some msg =>
            have hok : dvRecOk env d = false := by simp [dvRecOk, hp, he]
            unfold dvApplyBatch dvCountOk dvCountBad
            simp only [List.foldl_cons, List.filter, hok, Bool.not_false, List.map_cons]
            have hap : dvApplyRecord env st0.pending d = st0.pending := by
              simp [dvApplyRecord, hok]
            rw [hap]
            simp [List.length_cons, List.append_assoc]
            omega
      · rw [if_neg hp]
        have hp2 : dv_parent_exists env.childprojects d.parentIds.head? = false := by
          cases hb : dv_parent_exists env.childprojects d.parentIds.head?
          · rfl
          · exact absurd hb hp
        have hok : dvRecOk env d = false := by simp [dvRecOk, hp2]
        unfold dvApplyBatch dvCountOk dvCountBad
        simp only [List.foldl_cons, List.filter, hok, Bool.not_false, List.map_cons]
        have hap : dvApplyRecord env st0.pending d = st0.pending := by
          simp [dvApplyRecord, hok]
        rw [hap]
        simp [List.length_cons, List.append_assoc]
        omega

/-- Full characterization of the deliverables batch loop of one folder:
the committed table is the in-order fold of exactly the successfully
committed batches' effects; the failed-batch list records exactly the
commit-failing batches, each once, in order, with its full attempted id
list, error text and folder id; the processed/skipped totals come from
successful batches' per-record tallies plus the full size of each failed
batch. -/
theorem dv_run_spec (env : DelivEnv) (fid : String) (bs : List (List Deliv)) :
    ∀ (i : Nat) (st : DvStats),
    dv_run env fid i bs st =
      { committed := (dvSuccList env i bs).foldl
          (fun t p => dvApplyBatch env t p.2) st.committed,
        processed := st.processed +
          sumWith (fun p => dvCountOk env p.2) (dvSuccList env i bs),
        skipped := st.skipped +
          sumWith (fun p => dvCountBad env p.2) (dvSuccList env i bs) +
          sumWith (fun p => p.2.length) (dvFailList env i bs),
        failed := st.failed ++ (dvFailList env i bs).map (mkDvFailed env fid),
        successes := st.successes + (dvSuccList env i bs).length } := by
  induction bs with
  | nil =>
      intro i st
      simp [dv_run, dvSuccList, dvFailList, enumFrom, sumWith]
  | cons b rest ih =>
      intro i st
      show dv_run env fid (i + 1) rest (dv_batchStep env fid st i b) = _
      unfold dv_batchStep
      rw [dv_loop_spec]
      cases hc : env.commit i with
      | none =>
          dsimp only []
          rw [ih]
          have hsucc : dvSuccList env i (b :: rest) =
              (i, b) :: dvSuccList env (i + 1) rest := by
            simp [dvSuccList, enumFrom, List.filter, hc]
          have hfail : dvFailList env i (b :: rest) = dvFailList env (i + 1) rest := by
            simp [dvFailList, enumFrom, List.filter, hc]
          rw [hsucc, hfail]
          simp only [List.foldl_cons, sumWith, List.map_cons, List.sum_cons,
            List.length_cons]
          congr 1 <;> first | rfl | omega
      | some msg =>
          dsimp only []
          rw [ih]
          have hsucc : dvSuccList env i (b :: rest) = dvSuccList env (i + 1) rest := by
            simp [dvSuccList, enumFrom, List.filter, hc]
          have hfail : dvFailList env i (b :: rest) =
              (i, b) :: dvFailList env (i + 1) rest := by
            simp [dvFailList, enumFrom, List.filter, hc]
          rw [hsucc, hfail]
          simp only [List.map_cons, sumWith, List.sum_cons, List.length_cons]
          congr 1
          · omega
          · rw [List.append_assoc]
            simp [mkDvFailed, hc]

/-- C2 (confirmed): in both cited engines the committed state of a whole
run is the in-order fold of exactly those batches whose commit succeeded —
a commit-failing batch contributes nothing (full rollback), batches
committed earlier keep their rows, and later batches are still applied
(processing continues).  The failed-batch list is exactly one record per
commit-failing batch, in order and without repetition (no retry within
the run), carrying the full attempted id list and the error text (for the
deliverables engine also the folder id and batch size). -/
theorem batch_atomicity_continuation (env : CommitEnv) (limit : Option Nat)
    (companies : List HsRecord) (t0 : Table)
    (denv : DelivEnv) (dlimit : Option Nat) (fid : String)
    (tasks : List Deliv) (dt0 : Table) :
    (process_companies env limit companies t0).committed =
      (succList env 0 (chunks25 (pyTruncate limit companies))).foldl
        (fun t p => applyBatch companyPropertyMappings env.now t p.2) t0 ∧
    (process_companies env limit companies t0).failed =
      (failList env 0 (chunks25 (pyTruncate limit companies))).map (mkFailed env) ∧
    (process_deliverables_from_folder denv dlimit fid tasks dt0).committed =
      (dvSuccList denv 0 (chunks25 (pyTruncate dlimit (tasks.filter
          (fun d => decide (d.customItemTypeId = some deliverablesTypeId)))))).foldl
        (fun t p => dvApplyBatch denv t p.2) dt0 ∧
    (process_deliverables_from_folder denv dlimit fid tasks dt0).failed =
      (dvFailList denv 0 (chunks25 (pyTruncate dlimit (tasks.filter
          (fun d => decide (d.customItemTypeId = some deliverablesTypeId)))))).map
        (mkDvFailed denv fid) := by
  refine ⟨?_, ?_, ?_, ?_⟩
  · unfold process_companies
    rw [companiesRun_spec]
  · unfold process_companies
    rw [companiesRun_spec]
    simp
  · unfold process_deliverables_from_folder
    rw [dv_run_spec]
  · unfold process_deliverables_from_folder
    rw [dv_run_spec]
    simp

theorem applyRecord_bad (m : List (PType × List String)) (now : String)
    (r : HsRecord) (h : recOk m now r = false) (p : Table) :
    applyRecord m now p r = p := by
  unfold applyRecord
  cases hr : hsProcessRecord m now r p with
  | ok p2 =>
      have := hsProcessRecord_isOk_indep m now r p
      rw [hr] at this
      rw [h] at this
      cases this
  | error e => rfl

theorem chunks25_single {α : Type} (x : α) (xs : List α)
    (h : (x :: xs).length ≤ 25) : chunks25 (x :: xs) = [x :: xs] := by
  show chunks25F (x :: xs).length (x :: xs) = [x :: xs]
  rw [show (x :: xs).length = xs.length + 1 from rfl]
  rw [chunks25F]
  rw [List.take_of_length_le h, List.drop_eq_nil_of_le h]
  cases xs <;> rfl

/-- C1 (confirmed): in both cited engines, a single batch in which
exactly one record's processing raises (companies: every record of
`l1 ++ l2` processes successfully, `b` raises; deliverables: every record
of `d1 ++ d2` passes its dependency check and executes, `db` passes the
check but its statement execution raises) still commits: the run reports
B−1 processed, 1 skipped, one successful batch, no failed batch, and the
committed table holds exactly the B−1 good records' upserts. -/
theorem per_record_isolation (env : CommitEnv) (t0 : Table)
    (l1 l2 : List HsRecord) (b : HsRecord)
    (h1 : ∀ r ∈ l1 ++ l2, recOk companyPropertyMappings env.now r = true)
    (hb : recOk companyPropertyMappings env.now b = false)
    (hlen : (l1 ++ b :: l2).length ≤ 25)
    (hc : env.commit 0 = Option.none)
    (denv : DelivEnv) (dt0 : Table) (fid : String)
    (d1 d2 : List Deliv) (db : Deliv) (msg : String)
    (hd1 : ∀ d ∈ d1 ++ d2, dvRecOk denv d = true)
    (hdpar : dv_parent_exists denv.childprojects db.parentIds.head? = true)
    (hdx : denv.exec db.id = some msg)
    (hdty : ∀ d ∈ d1 ++ db :: d2, d.customItemTypeId = some deliverablesTypeId)
    (hdlen : (d1 ++ db :: d2).length ≤ 25)
    (hdc : denv.commit 0 = Option.none) :
    (process_companies env Option.none (l1 ++ b :: l2) t0).processed =
        (l1 ++ b :: l2).length - 1 ∧
    (process_companies env Option.none (l1 ++ b :: l2) t0).skipped = 1 ∧
    (process_companies env Option.none (l1 ++ b :: l2) t0).successes = 1 ∧
    (process_companies env Option.none (l1 ++ b :: l2) t0).failed = [] ∧
    (process_companies env Option.none (l1 ++ b :: l2) t0).committed =
        applyBatch companyPropertyMappings env.now t0 (l1 ++ l2) ∧
    (process_deliverables_from_folder denv Option.none fid (d1 ++ db :: d2)
        dt0).processed = (d1 ++ db :: d2).length - 1 ∧
    (process_deliverables_from_folder denv Option.none fid (d1 ++ db :: d2)
        dt0).skipped = 1 ∧
    (process_deliverables_from_folder denv Option.none fid (d1 ++ db :: d2)
        dt0).successes = 1 ∧
    (process_deliverables_from_folder denv Option.none fid (d1 ++ db :: d2)
        dt0).failed = [] ∧
    (process_deliverables_from_folder denv Option.none fid (d1 ++ db :: d2)
        dt0).committed = dvApplyBatch denv dt0 (d1 ++ d2) := by
  have h1a : ∀ r ∈ l1, recOk companyPropertyMappings env.now r = true :=
    fun r hr => h1 r (List.mem_append_left _ hr)
  have h1b : ∀ r ∈ l2, recOk companyPropertyMappings env.now r = true :=
    fun r hr => h1 r (List.mem_append_right _ hr)
  have hcs : ∃ y ys, l1 ++ b :: l2 = y :: ys := by
    cases hl : l1 ++ b :: l2 with
    | nil => exact absurd hl (List.append_ne_nil_of_right_ne_nil _ (by simp))
    | cons y ys => exact ⟨y, ys, rfl⟩
  obtain ⟨y, ys, hys⟩ := hcs
  unfold process_companies
  have htr : pyTruncate Option.none (l1 ++ b :: l2) = l1 ++ b :: l2 := rfl
  rw [htr, hys, chunks25_single y ys (hys ▸ hlen), ← hys]
  rw [companiesRun_spec]
  have hsucc : succList env 0 [l1 ++ b :: l2] = [(0, l1 ++ b :: l2)] := by
    simp [succList, enumFrom, List.filter, hc]
  have hfail : failList env 0 [l1 ++ b :: l2] = [] := by
    simp [failList, enumFrom, List.filter, hc]
  rw [hsucc, hfail]
  have hfiltOk : (l1 ++ b :: l2).filter
      (fun r => recOk companyPropertyMappings env.now r) = l1 ++ l2 := by
    rw [List.filter_append]
    rw [List.filter_eq_self.mpr h1a]
    simp only [List.filter, hb]
    rw [List.filter_eq_self.mpr h1b]
  have hfiltBad : (l1 ++ b :: l2).filter
      (fun r => !(recOk companyPropertyMappings env.now r)) = [b] := by
    rw [List.filter_append]
    have ha : l1.filter (fun r => !(recOk companyPropertyMappings env.now r)) = [] := by
      rw [List.filter_eq_nil_iff]
      intro r hr
      simp [h1a r hr]
    have hbb : l2.filter (fun r => !(recOk companyPropertyMappings env.now r)) = [] := by
      rw [List.filter_eq_nil_iff]
      intro r hr
      simp [h1b r hr]
    rw [ha]
    simp only [List.filter, hb, Bool.not_false, hbb]
    rfl
  have happly : applyBatch companyPropertyMappings env.now t0 (l1 ++ b :: l2) =
      applyBatch companyPropertyMappings env.now t0 (l1 ++ l2) := by
    unfold applyBatch
    rw [List.foldl_append, List.foldl_append, List.foldl_cons]
    rw [applyRecord_bad companyPropertyMappings env.now b hb]
  have hd1a : ∀ d ∈ d1, dvRecOk denv d = true :=
    fun d hd => hd1 d (List.mem_append_left _ hd)
  have hd1b : ∀ d ∈ d2, dvRecOk denv d = true :=
    fun d hd => hd1 d (List.mem_append_right _ hd)
  have hdb : dvRecOk denv db = false := by simp [dvRecOk, hdpar, hdx]
  have hdcs : ∃ z zs, d1 ++ db :: d2 = z :: zs := by
    cases hl : d1 ++ db :: d2 with
    | nil => exact absurd hl (List.append_ne_nil_of_right_ne_nil _ (by simp))
    | cons z zs => exact ⟨z, zs, rfl⟩
  obtain ⟨z, zs, hzs⟩ := hdcs
  unfold process_deliverables_from_folder
  dsimp only []
  have hdfilt : (d1 ++ db :: d2).filter
      (fun d => decide (d.customItemTypeId = some deliverablesTypeId)) =
      d1 ++ db :: d2 :=
    List.filter_eq_self.mpr (fun d hd => by simp [hdty d hd])
  rw [hdfilt]
  have hdtr : pyTruncate Option.none (d1 ++ db :: d2) = d1 ++ db :: d2 := rfl
  rw [hdtr, hzs, chunks25_single z zs (hzs ▸ hdlen), ← hzs]
  rw [dv_run_spec]
  have hdsucc : dvSuccList denv 0 [d1 ++ db :: d2] = [(0, d1 ++ db :: d2)] := by
    simp [dvSuccList, enumFrom, List.filter, hdc]
  have hdfail : dvFailList denv 0 [d1 ++ db :: d2] = [] := by
    simp [dvFailList, enumFrom, List.filter, hdc]
  rw [hdsucc, hdfail]
  have hdfiltOk : (d1 ++ db :: d2).filter (dvRecOk denv) = d1 ++ d2 := by
    rw [List.filter_append]
    rw [List.filter_eq_self.mpr hd1a]
    simp only [List.filter, hdb]
    rw [List.filter_eq_self.mpr hd1b]
  have hdfiltBad : (d1 ++ db :: d2).filter (fun d => !(dvRecOk denv d)) = [db] := by
    rw [List.filter_append]
    have ha : d1.filter (fun d => !(dvRecOk denv d)) = [] := by
      rw [List.filter_eq_nil_iff]
      intro d hd
      simp [hd1a d hd]
    have hbb : d2.filter (fun d => !(dvRecOk denv d)) = [] := by
      rw [List.filter_eq_nil_iff]
      intro d hd
      simp [hd1b d hd]
    rw [ha]
    simp only [List.filter, hdb, Bool.not_false, hbb]
    rfl
  have hdapply : dvApplyBatch denv dt0 (d1 ++ db :: d2) =
      dvApplyBatch denv dt0 (d1 ++ d2) := by
    unfold dvApplyBatch
    rw [List.foldl_append, List.foldl_append, List.foldl_cons]
    have hstep : dvApplyRecord denv (List.foldl (dvApplyRecord denv) dt0 d1) db =
        List.foldl (dvApplyRecord denv) dt0 d1 := by
      simp [dvApplyRecord, hdb]
    rw [hstep]
  dsimp only []
  refine ⟨?_, ?_, ?_, ?_, ?_, ?_, ?_, ?_, ?_, ?_⟩
  · simp [sumWith, countOk, hfiltOk, List.length_append]
  · simp [sumWith, countBad, hfiltBad]
  · simp [sumWith]
  · simp
  · simp only [List.foldl_cons, List.foldl_nil]
    exact happly
  · simp [sumWith, dvCountOk, hdfiltOk, List.length_append]
  · simp [sumWith, dvCountBad, hdfiltBad]
  · simp [sumWith]
  · simp
  · simp only [List.foldl_cons, List.foldl_nil]
    exact hdapply

/-- Characterization of the contacts batch loop: the committed table folds
only successfully committed batches, but `processed_count` and
`skipped_count` are incremented per record as the loop runs, so they keep
the contributions of rolled-back batches, and a failed batch adds its full
size to `skipped_count` on top. -/
theorem contactsRun_spec (env : CommitEnv) (bs : List (List HsRecord)) :
    ∀ (i : Nat) (st : CStats),
    contactsRun env i bs st =
      { committed := (succList env i bs).foldl
          (fun t p => applyBatch contactPropertyMappings env.now t p.2) st.committed,
        processed := st.processed +
          sumWith (fun p => countOk contactPropertyMappings env.now p.2) (enumFrom i bs),
        skipped := st.skipped +
          sumWith (fun p => countBad contactPropertyMappings env.now p.2) (enumFrom i bs) +
          sumWith (fun p => p.2.length) (failList env i bs) } := by
  induction bs with
  | nil =>
      intro i st
      simp [contactsRun, succList, failList, enumFrom, sumWith]
  | cons b rest ih =>
      intro i st
      show contactsRun env (i + 1) rest (contactsBatchStep env st i b) = _
      unfold contactsBatchStep
      rw [hsBatchLoop_eq]
      cases hc : env.commit i with
      | none =>
          dsimp only []
          rw [ih]
          have hsucc : succList env i (b :: rest) =
              (i, b) :: succList env (i + 1) rest := by
            simp [succList, enumFrom, List.filter, hc]
          have hfail : failList env i (b :: rest) = failList env (i + 1) rest := by
            simp [failList, enumFrom, List.filter, hc]
          rw [hsucc, hfail]
          simp only [List.foldl_cons, sumWith, List.map_cons, List.sum_cons, enumFrom]
          congr 1 <;> first | rfl | omega
      | some msg =>
          dsimp only []
          rw [ih]
          have hsucc : succList env i (b :: rest) = succList env (i + 1) rest := by
            simp [succList, enumFrom, List.filter, hc]
          have hfail : failList env i (b :: rest) =
              (i, b) :: failList env (i + 1) rest := by
            simp [failList, enumFrom, List.filter, hc]
          rw [hsucc, hfail]
          simp only [sumWith, List.map_cons, List.sum_cons, enumFrom]
          congr 1 <;> first | rfl | omega

/-- C9 (amended): the two engines account batch failure differently.  In
the companies sync the buckets are exclusive: `skipped_count` sums the
per-record skips of committed batches plus the full size of each failed
batch, and `processed_count` counts only committed batches' successes.
In the contacts sync the per-record tallies are global and survive the
rollback, so a failed batch's records are double-counted: its per-record
skips stay in `skipped_count` alongside the whole-batch `len(batch)`
addition, and even its rolled-back successes stay in `processed_count`. -/
theorem failure_accounting_exclusivity (env : CommitEnv) (limit : Option Nat)
    (records : List HsRecord) (t0 : Table) :
    ((process_companies env limit records t0).processed =
        sumWith (fun p => countOk companyPropertyMappings env.now p.2)
          (succList env 0 (chunks25 (pyTruncate limit records))) ∧
      (process_companies env limit records t0).skipped =
        sumWith (fun p => countBad companyPropertyMappings env.now p.2)
          (succList env 0 (chunks25 (pyTruncate limit records))) +
        sumWith (fun p => p.2.length)
          (failList env 0 (chunks25 (pyTruncate limit records)))) ∧
    ((process_contacts env limit records t0).processed =
        sumWith (fun p => countOk contactPropertyMappings env.now p.2)
          (enumFrom 0 (chunks25 (pyTruncate limit records))) ∧
      (process_contacts env limit records t0).skipped =
        sumWith (fun p => countBad contactPropertyMappings env.now p.2)
          (enumFrom 0 (chunks25 (pyTruncate limit records))) +
        sumWith (fun p => p.2.length)
          (failList env 0 (chunks25 (pyTruncate limit records)))) := by
  constructor
  · unfold process_companies
    rw [companiesRun_spec]
    exact ⟨by simp, by simp⟩
  · unfold process_contacts
    rw [contactsRun_spec]
    exact ⟨by simp, by simp⟩

/-- C9 counterexample: a contacts batch of two records — one raising
per-record (malformed id `'x'`), one fine — whose commit then fails ends
with `skipped_count = 3` for a 2-record batch (the per-record skip is
counted again inside the whole-batch addition) and `processed_count = 1`
despite the rollback, contradicting the claimed mutually-exclusive
accounting. -/
theorem contacts_failed_batch_double_count :
    (process_contacts ⟨"T", fun _ => some "boom"⟩ Option.none
        [⟨some "x", []⟩, ⟨some "1", []⟩] []).skipped = 3 ∧
    (process_contacts ⟨"T", fun _ => some "boom"⟩ Option.none
        [⟨some "x", []⟩, ⟨some "1", []⟩] []).processed = 1 := by
  constructor
  · decide
  · decide

/-! ## Claim C8 — limit truncation -/

theorem getAllAux_step (src : List HsRecord) (tl : Option Nat) (B fuel pos : Nat)
    (acc : List HsRecord) :
    getAllAux src tl B (fuel + 1) pos acc =
      (if limTruthy tl ∧ (acc ++ ((src.drop pos).take B)).length ≥ limVal tl then
        (acc ++ ((src.drop pos).take B)).take (limVal tl)
      else
        match (if pos + B < src.length then some (pos + B) else Option.none) with
        | Option.none => acc ++ ((src.drop pos).take B)
        | some pos2 => getAllAux src tl B fuel pos2 (acc ++ ((src.drop pos).take B))) := rfl

theorem getAllAux_noLimit (src : List HsRecord) :
    ∀ (fuel pos : Nat) (acc : List HsRecord), src.length - pos < fuel →
      getAllAux src Option.none 100 fuel pos acc = acc ++ src.drop pos := by
  intro fuel
  induction fuel with
  | zero =>
      intro pos acc h
      omega
  | succ fuel ih =>
      intro pos acc h
      rw [getAllAux_step]
      have hcond : ¬ (limTruthy Option.none = true ∧
          (acc ++ ((src.drop pos).take 100)).length ≥ limVal Option.none) := by
        intro hh
        exact absurd hh.1 (by simp [limTruthy])
      rw [if_neg hcond]
      by_cases hnext : pos + 100 < src.length
      · rw [if_pos hnext]
        dsimp only []
        rw [ih (pos + 100) _ (by omega)]
        rw [List.append_assoc]
        congr 1
        have hdd : src.drop (pos + 100) = (src.drop pos).drop 100 := by
          rw [List.drop_drop]
        rw [hdd, List.take_append_drop]
      · rw [if_neg hnext]
        dsimp only []
        congr 1
        apply List.take_of_length_le
        rw [List.length_drop]
        omega

theorem getAllAux_limit (src : List HsRecord) (L B : Nat) (hL : 1 ≤ L) (hB : 1 ≤ B)
    (hLlen : L ≤ src.length) :
    ∀ (fuel pos : Nat) (acc : List HsRecord),
      acc.length = pos → pos < L → src.length - pos < fuel →
      (getAllAux src (some L) B fuel pos acc).length = L := by
  intro fuel
  induction fuel with
  | zero =>
      intro pos acc hacc hpos h
      omega
  | succ fuel ih =>
      intro pos acc hacc hpos h
      rw [getAllAux_step]
      have hlt : limTruthy (some L) = true := by
        simp [limTruthy]
        omega
      have hlv : limVal (some L) = L := rfl
      have hacc2 : (acc ++ ((src.drop pos).take B)).length =
          pos + min B (src.length - pos) := by
        rw [List.length_append, hacc, List.length_take, List.length_drop]
      by_cases hge : (acc ++ ((src.drop pos).take B)).length ≥ limVal (some L)
      · rw [if_pos ⟨hlt, hge⟩]
        rw [List.length_take, hlv]
        rw [hlv] at hge
        omega
      · rw [if_neg (by
          intro hh
          exact hge hh.2)]
        have hnb : pos + B < src.length := by
          rw [hacc2, hlv] at hge
          omega
        rw [if_pos hnb]
        dsimp only []
        apply ih (pos + B) _ _ _ (by omega)
        · rw [hacc2]
          have : min B (src.length - pos) = B := by omega
          rw [this]
        · rw [hacc2, hlv] at hge
          have : min B (src.length - pos) = B := by omega
          omega

theorem sumWith_add {α : Type} (f g : α → Nat) (l : List α) :
    sumWith f l + sumWith g l = sumWith (fun a => f a + g a) l := by
  induction l with
  | nil => rfl
  | cons a as ih =>
      simp [sumWith] at ih ⊢
      omega

theorem sumWith_congr {α : Type} (f g : α → Nat) (l : List α)
    (h : ∀ a ∈ l, f a = g a) : sumWith f l = sumWith g l := by
  induction l with
  | nil => rfl
  | cons a as ih =>
      simp [sumWith] at ih ⊢
      rw [h a (by simp), ih fun a ha => h a (by simp [ha])]

theorem sumWith_filter_split {α : Type} (f : α → Nat) (P : α → Bool) (l : List α) :
    sumWith f (l.filter P) + sumWith f (l.filter (fun a => !(P a))) = sumWith f l := by
  induction l with
  | nil => rfl
  | cons a as ih =>
      cases hp : P a <;> simp [List.filter, hp, sumWith] at ih ⊢ <;> omega

theorem sumWith_enumFrom {α : Type} (f : α → Nat) :
    ∀ (i : Nat) (l : List α),
      sumWith (fun p => f p.2) (enumFrom i l) = sumWith f l := by
  intro i l
  induction l generalizing i with
  | nil => rfl
  | cons a as ih => simp [enumFrom, sumWith] at ih ⊢; exact ih _

theorem chunks25F_sum_length {α : Type} :
    ∀ (fuel : Nat) (l : List α), l.length ≤ fuel →
      sumWith List.length (chunks25F fuel l) = l.length := by
  intro fuel
  induction fuel with
  | zero =>
      intro l h
      have : l = [] := List.length_eq_zero.mp (by omega)
      subst this
      rfl
  | succ fuel ih =>
      intro l h
      cases l with
      | nil => rfl
      | cons x xs =>
          rw [chunks25F]
          have hdl : ((x :: xs).drop 25).length ≤ fuel := by
            rw [List.length_drop]
            simp only [List.length_cons] at h ⊢
            omega
          simp only [sumWith, List.map_cons, List.sum_cons]
          rw [show (List.map List.length (chunks25F fuel ((x :: xs).drop 25))).sum =
              sumWith List.length (chunks25F fuel ((x :: xs).drop 25)) from rfl]
          rw [ih _ hdl]
          rw [List.length_take, List.length_drop]
          simp only [List.length_cons] at h ⊢
          omega

theorem chunks25_sum_length {α : Type} (l : List α) :
    sumWith List.length (chunks25 l) = l.length :=
  chunks25F_sum_length l.length l (Nat.le_refl _)

/-- `Option.isSome` is the negation of `Option.isNone`, lifted to the
fail-list predicate. -/
theorem failList_eq_filter_not (env : CommitEnv) (i : Nat)
    (bs : List (List HsRecord)) :
    failList env i bs = (enumFrom i bs).filter
      (fun p => !((env.commit p.1).isNone)) := by
  unfold failList
  congr 1
  funext p
  cases env.commit p.1 <;> rfl

/-- A run's processed and skipped totals partition the record set: every
record of the (truncated) input is counted exactly once. -/
theorem companies_processed_skipped_total (env : CommitEnv) (limit : Option Nat)
    (cs : List HsRecord) (t0 : Table) :
    (process_companies env limit cs t0).processed +
      (process_companies env limit cs t0).skipped =
      (pyTruncate limit cs).length := by
  unfold process_companies
  rw [companiesRun_spec]
  dsimp only []
  rw [show (0 : Nat) + sumWith (fun p => countOk companyPropertyMappings env.now p.2)
      (succList env 0 (chunks25 (pyTruncate limit cs))) =
      sumWith (fun p => countOk companyPropertyMappings env.now p.2)
      (succList env 0 (chunks25 (pyTruncate limit cs))) from by omega]
  rw [show (0 : Nat) + sumWith (fun p => countBad companyPropertyMappings env.now p.2)
      (succList env 0 (chunks25 (pyTruncate limit cs))) +
      sumWith (fun p => p.2.length) (failList env 0 (chunks25 (pyTruncate limit cs))) =
      sumWith (fun p => countBad companyPropertyMappings env.now p.2)
      (succList env 0 (chunks25 (pyTruncate limit cs))) +
      sumWith (fun p => p.2.length) (failList env 0 (chunks25 (pyTruncate limit cs)))
      from by omega]
  have hsplit := sumWith_filter_split (fun p : Nat × List HsRecord => p.2.length)
    (fun p => (env.commit p.1).isNone) (enumFrom 0 (chunks25 (pyTruncate limit cs)))
  have hadd := sumWith_add (fun p : Nat × List HsRecord => countOk companyPropertyMappings env.now p.2)
    (fun p => countBad companyPropertyMappings env.now p.2)
    (succList env 0 (chunks25 (pyTruncate limit cs)))
  have hcong : sumWith (fun p : Nat × List HsRecord =>
      countOk companyPropertyMappings env.now p.2 + countBad companyPropertyMappings env.now p.2)
      (succList env 0 (chunks25 (pyTruncate limit cs))) =
      sumWith (fun p : Nat × List HsRecord => p.2.length)
      (succList env 0 (chunks25 (pyTruncate limit cs))) :=
    sumWith_congr _ _ _ (fun a _ => countOk_add_countBad _ _ _)
  rw [failList_eq_filter_not]
  have henum := sumWith_enumFrom (List.length (α := HsRecord)) 0 (chunks25 (pyTruncate limit cs))
  have hch := chunks25_sum_length (pyTruncate limit cs)
  unfold succList at hadd hcong ⊢
  omega

theorem dv_loop_counts (env : DelivEnv) (batch : List Deliv) :
    ∀ st0 : DvLoopSt,
      (batch.foldl (dv_recordStep env) st0).bp +
        (batch.foldl (dv_recordStep env) st0).bs =
      st0.bp + st0.bs + batch.length := by
  induction batch with
  | nil =>
      intro st0
      rfl
  | cons d ds ih =>
      intro st0
      rw [List.foldl_cons]
      rw [ih]
      unfold dv_recordStep
      by_cases h : dv_parent_exists env.childprojects d.parentIds.head? = true
      · rw [if_pos h]
        cases he : env.exec d.id <;> simp only [List.length_cons] <;> omega
      · rw [if_neg h]
        simp only [List.length_cons]
        omega

theorem dv_run_counts (env : DelivEnv) (fid : String) (bs : List (List Deliv)) :
    ∀ (i : Nat) (st : DvStats),
      (dv_run env fid i bs st).processed + (dv_run env fid i bs st).skipped =
        st.processed + st.skipped + sumWith List.length bs := by
  induction bs with
  | nil =>
      intro i st
      simp [dv_run, sumWith]
  | cons b rest ih =>
      intro i st
      have hstep : dv_run env fid i (b :: rest) st =
          dv_run env fid (i + 1) rest (dv_batchStep env fid st i b) := rfl
      rw [hstep, ih]
      unfold dv_batchStep
      have hl := dv_loop_counts env b ⟨st.committed, 0, 0, []⟩
      cases hc : env.commit i with
      | none =>
          dsimp only []
          simp only [sumWith, List.map_cons, List.sum_cons] at hl ⊢
          omega
      | some msg =>
          dsimp only []
          simp only [sumWith, List.map_cons, List.sum_cons]
          omega

theorem process_dv_folder_counts (env : DelivEnv) (limit : Option Nat)
    (fid : String) (tasks : List Deliv) (t0 : Table) :
    (process_deliverables_from_folder env limit fid tasks t0).processed +
      (process_deliverables_from_folder env limit fid tasks t0).skipped =
      (pyTruncate limit (tasks.filter
        (fun d => decide (d.customItemTypeId = some deliverablesTypeId)))).length := by
  unfold process_deliverables_from_folder
  rw [dv_run_counts]
  rw [chunks25_sum_length]
  dsimp only []
  omega

theorem dv_folderLoop_counts (env : DelivEnv) (limit : Option Nat) :
    ∀ (folders : List (String × List Deliv)) (acc : DvRunTotals),
      (dv_folderLoop env limit folders acc).totalProcessed +
        (dv_folderLoop env limit folders acc).totalSkipped =
      acc.totalProcessed + acc.totalSkipped +
        sumWith (fun f => (pyTruncate limit (f.2.filter
          (fun d => decide (d.customItemTypeId = some deliverablesTypeId)))).length)
          folders := by
  intro folders
  induction folders with
  | nil =>
      intro acc
      simp [dv_folderLoop, sumWith]
  | cons f rest ih =>
      intro acc
      have hstep : dv_folderLoop env limit (f :: rest) acc =
          dv_folderLoop env limit rest
            { committed := (process_deliverables_from_folder env limit f.1 f.2
                acc.committed).committed,
              totalProcessed := acc.totalProcessed +
                (process_deliverables_from_folder env limit f.1 f.2 acc.committed).processed,
              totalSkipped := acc.totalSkipped +
                (process_deliverables_from_folder env limit f.1 f.2 acc.committed).skipped,
              totalFailed := acc.totalFailed ++
                (process_deliverables_from_folder env limit f.1 f.2 acc.committed).failed } := rfl
      rw [hstep, ih]
      dsimp only []
      have hf := process_dv_folder_counts env limit f.1 f.2 acc.committed
      simp only [sumWith, List.map_cons, List.sum_cons]
      omega

/-- C8 (amended): for the flat HubSpot companies sync the limit is a
per-run cap — extraction with limit `L` against a source holding at least
`L` records returns exactly `L`, no limit fetches everything, and the
load accounts for exactly the truncated record set
(`processed + skipped = |input|`, so at most `L` are processed).  For the
folder-scoped deliverables sync the same `test_limit` is applied to the
folder list and again to each folder's record list, so a run loads up to
`L` records **per folder** (the amendment): the run totals equal the sum
over the first `L` folders of each folder's truncated deliverable count,
which can exceed `L`. -/
theorem limit_truncation_amended :
    (∀ (src : List HsRecord) (L : Nat), 1 ≤ L → L ≤ src.length →
        (get_all_companies src (some L)).length = L) ∧
    (∀ src : List HsRecord, get_all_companies src Option.none = src) ∧
    (∀ (env : CommitEnv) (limit : Option Nat) (cs : List HsRecord) (t0 : Table),
        (process_companies env limit cs t0).processed +
          (process_companies env limit cs t0).skipped =
          (pyTruncate limit cs).length) ∧
    (∀ (env : DelivEnv) (limit : Option Nat) (folders : List (String × List Deliv))
        (t0 : Table),
        (dv_run_sync env limit folders t0).totalProcessed +
          (dv_run_sync env limit folders t0).totalSkipped =
          sumWith (fun f => (pyTruncate limit (f.2.filter
            (fun d => decide (d.customItemTypeId = some deliverablesTypeId)))).length)
            (pyTruncate limit folders)) := by
  refine ⟨?_, ?_, ?_, ?_⟩
  · intro src L hL hLlen
    unfold get_all_companies
    have hlt : limTruthy (some L) = true := by
      simp [limTruthy]
      omega
    rw [if_pos hlt]
    have hlv : limVal (some L) = L := rfl
    rw [hlv]
    exact getAllAux_limit src L (min 100 L) hL (by omega) hLlen (src.length + 1) 0 []
      rfl (by omega) (by omega)
  · intro src
    unfold get_all_companies
    rw [if_neg (by simp [limTruthy])]
    have h := getAllAux_noLimit src (src.length + 1) 0 [] (by omega)
    rw [h]
    simp
  · exact companies_processed_skipped_total
  · intro env limit folders t0
    unfold dv_run_sync
    rw [dv_folderLoop_counts]
    dsimp only []
    omega

/-- C8 counterexample: a deliverables run invoked with `test_limit = 2`
against two child-project folders of two deliverables each (four
available records, more than the limit) processes 4 records in total —
the limit caps records per folder, not per run, so the run does not
process "exactly 2 (or fewer)". -/
theorem deliverables_limit_is_per_folder :
    (dv_run_sync ⟨[], fun _ => Option.none, fun _ => Option.none⟩ (some 2)
        [("f1", [dvSample "a", dvSample "b"]),
         ("f2", [dvSample "c", dvSample "d"])] []).totalProcessed = 4 ∧
    ¬ (4 : Nat) ≤ 2 := by
  constructor
  · decide
  · decide

/-! ## Witnesses -/

set_option maxRecDepth 100000 in
/-- Witness for C1: a two-record companies batch — one well-formed record
(id `'1'`) and one malformed record (id `'x'`, whose `int()` raises) —
commits with one skip and no failed batch; and a two-record deliverables
batch — one clean record and one whose statement execution raises —
likewise commits with exactly one skip. -/
theorem per_record_isolation_witness :
    (process_companies ⟨"T", fun _ => Option.none⟩ Option.none
        ([⟨some "1", []⟩] ++ HsRecord.mk (some "x") [] :: []) []).skipped = 1 ∧
    (process_companies ⟨"T", fun _ => Option.none⟩ Option.none
        ([⟨some "1", []⟩] ++ HsRecord.mk (some "x") [] :: []) []).failed = [] ∧
    (process_deliverables_from_folder
        ⟨["P"], fun _ => Option.none,
          fun i => if i = "bad" then some "boom" else Option.none⟩
        Option.none "F" ([dvSample "a"] ++ dvSample "bad" :: []) []).skipped = 1 :=
  ⟨(per_record_isolation ⟨"T", fun _ => Option.none⟩ [] [⟨some "1", []⟩] []
      ⟨some "x", []⟩ (by decide) (by decide) (by decide) rfl
      ⟨["P"], fun _ => Option.none,
        fun i => if i = "bad" then some "boom" else Option.none⟩
      [] "F" [dvSample "a"] [] (dvSample "bad") "boom"
      (by decide) (by decide) (by decide) (by decide) (by decide) rfl).2.1,
   (per_record_isolation ⟨"T", fun _ => Option.none⟩ [] [⟨some "1", []⟩] []
      ⟨some "x", []⟩ (by decide) (by decide) (by decide) rfl
      ⟨["P"], fun _ => Option.none,
        fun i => if i = "bad" then some "boom" else Option.none⟩
      [] "F" [dvSample "a"] [] (dvSample "bad") "boom"
      (by decide) (by decide) (by decide) (by decide) (by decide) rfl).2.2.2.1,
   (per_record_isolation ⟨"T", fun _ => Option.none⟩ [] [⟨some "1", []⟩] []
      ⟨some "x", []⟩ (by decide) (by decide) (by decide) rfl
      ⟨["P"], fun _ => Option.none,
        fun i => if i = "bad" then some "boom" else Option.none⟩
      [] "F" [dvSample "a"] [] (dvSample "bad") "boom"
      (by decide) (by decide) (by decide) (by decide) (by decide)
      rfl).2.2.2.2.2.2.1⟩

set_option maxRecDepth 100000 in
/-- Witness for C4: re-executing a concrete company upsert reproduces the
table it produced. -/
theorem upsert_idempotent_witness :
    hsProcessRecord companyPropertyMappings "T" ⟨some "1", []⟩
        ((hsProcessRecord companyPropertyMappings "T" ⟨some "1", []⟩ []).toOption.getD []) =
      .ok ((hsProcessRecord companyPropertyMappings "T" ⟨some "1", []⟩ []).toOption.getD []) :=
  upsert_idempotent.1 "T" ⟨some "1", []⟩ []
    ((hsProcessRecord companyPropertyMappings "T" ⟨some "1", []⟩ []).toOption.getD [])
    (by rfl)

set_option maxRecDepth 100000 in
/-- Witness for C5: a company payload lacking the `name` property omits
`property_name` from its statement, and a line-items field list with a
None-valued `price` omits `price` from its statement. -/
theorem null_omission_frame_witness :
    alookup (nonNullCols ((hsDbValues companyPropertyMappings "T"
        ⟨some "1", []⟩).toOption.getD [])) "property_name" = Option.none ∧
    alookup (build_upsert_sql_cols
        [("id", some (DbVal.s "1")), ("price", Option.none)]) "price" = Option.none :=
  ⟨null_omission_frame.1 companyPropertyMappings "T" ⟨some "1", []⟩
      ((hsDbValues companyPropertyMappings "T" ⟨some "1", []⟩).toOption.getD [])
      (by rfl) "property_name" (by rfl),
   (null_omission_frame.2.2.1 [("id", some (DbVal.s "1")), ("price", Option.none)]
      "price" (by simp [NoDupKeys, alookup]) (by rfl)).1⟩

/-- Witness for C7: concrete lookups through the two resolvers and a
concrete skipped record. -/
theorem parent_exists_amended_witness :
    dv_parent_exists ["A"] (some "B") = memStr ["A"] "B" ∧
    ts_parent_exists ["A"] (some "B") = memStr ["A"] "B" :=
  ⟨parent_exists_amended.2.2.1 ["A"] "B" (by decide),
   parent_exists_amended.2.2.2.1 ["A"] "B" (by decide) (by decide)⟩

/-- Witness for C8: extraction limited to 2 against a 3-record source
returns exactly 2 records. -/
theorem limit_truncation_amended_witness :
    (get_all_companies [⟨some "1", []⟩, ⟨some "2", []⟩, ⟨some "3", []⟩]
        (some 2)).length = 2 :=
  limit_truncation_amended.1 [⟨some "1", []⟩, ⟨some "2", []⟩, ⟨some "3", []⟩] 2
    (by decide) (by decide)

set_option maxRecDepth 100000 in
/-- Witness for C10: a concrete company statement carries
`is_deleted = FALSE`. -/
theorem live_flag_amended_witness :
    alookup (nonNullCols ((hsDbValues companyPropertyMappings "T"
        ⟨Option.none, []⟩).toOption.getD [])) "is_deleted" = some (DbVal.b false) :=
  (live_flag_amended.1 "T" ⟨Option.none, []⟩
    ((hsDbValues companyPropertyMappings "T" ⟨Option.none, []⟩).toOption.getD [])
    (by rfl)).1
